import Mathlib

set_option maxRecDepth 8192

/-!
Verification of the shared-memory IPC programs.

The repository has three Python programs:
* `shared_memoryPythonSystemV.py` — a System-V shared-memory channel driven
  through `ctypes`/`libc` (`shmget`/`shmat`), with a length-prefixed JSON frame
  format, a validated `read`, a zero-filling `write`, and a guarded `cleanup`.
  Modelled below in namespace `CtShm`.
* `py_ipc.py` — the same protocol via the `sysv_ipc` binding.  Its `read`
  performs no length validation and its `write` does not zero-fill.  Modelled
  in namespace `PyShm`.
* `old/python/python_IPC.py` — a Unix-socket request/response server.
  Modelled in namespace `IPCServer`.

Modelling conventions:
* Byte buffers and text are `List Nat` (byte values, resp. Unicode code
  points).  The serializer `json.dumps` runs with its defaults
  (`ensure_ascii=True`, separators `", "` / `": "`), so its output is pure
  ASCII and its UTF-8 encoding is the identity on the code points.
* JSON numbers are modelled by the integral fragment (`Int`).  Python also
  reads and writes floating-point numbers; those are outside this model, and
  the modelled parser rejects a fractional part or exponent.  No claim below
  depends on float behaviour.
* Machine integers are `Nat`/`Int` with explicit bounds: `struct.pack("=I")`
  requires its argument to be below `2^32`, `struct.pack("i")` a signed
  32-bit value; both produce little-endian bytes on the x86 targets the
  programs run on ("native byte order").
* Exceptions are `Except`/`Option`: a `.error`/`none` outcome of a model
  function corresponds to the Python function raising (or, where noted, to
  an explicit `return None`).
* External OS calls (`shmget(2)`, `sysv_ipc` reads/writes) are modelled from
  their documented semantics; each such definition carries a comment saying
  so.
-/

/-! ## The JSON data model

Python values pass through `json.dumps`/`json.loads`; the exchanged values
are mappings, sequences, strings, numbers, booleans and null.  Arrays and
objects are mutually inductive with the value type so that all functions over
them are structurally recursive (and hence compute by kernel reduction).
Object members are kept in insertion order, as Python dicts do. -/

mutual
inductive Json where
  | null : Json
  | bool (b : Bool) : Json
  | num (n : Int) : Json
  | str (s : List Nat) : Json
  | arr (elems : JArr) : Json
  | obj (members : JObj) : Json
inductive JArr where
  | nil : JArr
  | cons (hd : Json) (tl : JArr) : JArr
inductive JObj where
  | nil : JObj
  | cons (key : List Nat) (val : Json) (tl : JObj) : JObj
end

namespace json

/-! ### Serialization: `json.dumps` with default options -/

/-- Decimal digits of a natural number, most significant first (the fuel
argument only drives the recursion; `natToDec` always supplies enough). -/
def natToDecAux : Nat → Nat → List Nat
  | 0, _ => []
  | f+1, n => if n < 10 then [48 + n] else natToDecAux f (n / 10) ++ [48 + n % 10]

def natToDec (n : Nat) : List Nat := natToDecAux (n + 1) n

/-- `repr` of a Python int: optional minus sign, then decimal digits. -/
def intRepr (n : Int) : List Nat :=
  if n < 0 then 45 :: natToDec n.natAbs else natToDec n.toNat

/-- Lower-case hex digit, as produced by the `%04x` escapes of the encoder. -/
def hexDigit (n : Nat) : Nat := if n < 10 then 48 + n else 87 + n

def hex4 (n : Nat) : List Nat :=
  [hexDigit (n / 4096 % 16), hexDigit (n / 256 % 16), hexDigit (n / 16 % 16), hexDigit (n % 16)]

/-- A `\uXXXX` escape. -/
def escU (c : Nat) : List Nat := 92 :: 117 :: hex4 c

/-- Escape of one code point under `ensure_ascii=True`: the two-character
escapes for quote, backslash and the control characters b/t/n/f/r, `\uXXXX`
for the remaining characters outside printable ASCII `0x20..0x7e`, and a
surrogate pair of escapes for code points above `0xffff`. -/
def escapeChar (c : Nat) : List Nat :=
  if c = 34 then [92, 34]
  else if c = 92 then [92, 92]
  else if c = 8 then [92, 98]
  else if c = 9 then [92, 116]
  else if c = 10 then [92, 110]
  else if c = 12 then [92, 102]
  else if c = 13 then [92, 114]
  else if c < 32 then escU c
  else if c < 127 then [c]
  else if c < 65536 then escU c
  else escU (55296 + (c - 65536) / 1024) ++ escU (56320 + (c - 65536) % 1024)

/-- A JSON string literal: quote, escaped characters, quote. -/
def quoteStr (s : List Nat) : List Nat := 34 :: (s.map escapeChar).flatten ++ [34]

mutual
/-- `json.dumps` with the default separators `", "` and `": "`. -/
def dumps : Json → List Nat
  | .null => [110, 117, 108, 108]
  | .bool true => [116, 114, 117, 101]
  | .bool false => [102, 97, 108, 115, 101]
  | .num n => intRepr n
  | .str s => quoteStr s
  | .arr .nil => [91, 93]
  | .arr (.cons x xs) => 91 :: (dumps x ++ dumpsArr xs ++ [93])
  | .obj .nil => [123, 125]
  | .obj (.cons k v kvs) => 123 :: (quoteStr k ++ [58, 32] ++ dumps v ++ dumpsObj kvs ++ [125])
  termination_by structural v => v
/-- The `", elem"` continuation of an array body. -/
def dumpsArr : JArr → List Nat
  | .nil => []
  | .cons x xs => 44 :: 32 :: (dumps x ++ dumpsArr xs)
  termination_by structural xs => xs
/-- The `", key: value"` continuation of an object body. -/
def dumpsObj : JObj → List Nat
  | .nil => []
  | .cons k v kvs => 44 :: 32 :: (quoteStr k ++ [58, 32] ++ dumps v ++ dumpsObj kvs)
  termination_by structural kvs => kvs
end

/-! ### Encodable values

`json.dumps` accepts any Python str, but round-tripping requires strings of
well-formed Unicode (code points below `0x110000` and no lone surrogates:
Python recombines an adjacent escaped surrogate pair into one code point on
`loads`).  Object keys of a Python dict are distinct. -/

def wfChar (c : Nat) : Bool := decide (c < 1114112) && !(decide (55296 ≤ c) && decide (c < 57344))

def wfStr (s : List Nat) : Bool := s.all wfChar

def objKeys : JObj → List (List Nat)
  | .nil => []
  | .cons k _ kvs => k :: objKeys kvs

def keysDistinct : List (List Nat) → Bool
  | [] => true
  | k :: ks => !(ks.contains k) && keysDistinct ks

mutual
inductive Wf : Json → Prop where
  | null : Wf .null
  | bool (b : Bool) : Wf (.bool b)
  | num (n : Int) : Wf (.num n)
  | str (s : List Nat) (h : wfStr s = true) : Wf (.str s)
  | arr (xs : JArr) (h : WfArr xs) (hk : True) : Wf (.arr xs)
  | obj (kvs : JObj) (h : WfObj kvs) (hk : keysDistinct (objKeys kvs) = true) : Wf (.obj kvs)
inductive WfArr : JArr → Prop where
  | nil : WfArr .nil
  | cons {x : Json} {xs : JArr} (hx : Wf x) (hxs : WfArr xs) : WfArr (.cons x xs)
inductive WfObj : JObj → Prop where
  | nil : WfObj .nil
  | cons {k : List Nat} {v : Json} {kvs : JObj} (hk : wfStr k = true) (hv : Wf v)
      (hkvs : WfObj kvs) : WfObj (.cons k v kvs)
end

/-! ### UTF-8 -/

/-- UTF-8 encoding of one code point (1 to 4 bytes). -/
def utf8EncodeChar (c : Nat) : List Nat :=
  if c < 128 then [c]
  else if c < 2048 then [192 + c / 64, 128 + c % 64]
  else if c < 65536 then [224 + c / 4096, 128 + c / 64 % 64, 128 + c % 64]
  else [240 + c / 262144, 128 + c / 4096 % 64, 128 + c / 64 % 64, 128 + c % 64]

/-- `str.encode("utf-8")`. -/
def utf8Encode (s : List Nat) : List Nat := (s.map utf8EncodeChar).flatten

/-- Decoding one multi-byte UTF-8 sequence with lead byte `b ≥ 128` and rest
`bs`: rejects stray continuation bytes (`b < 194` covers `128..193`, the
continuation range and the two always-overlong lead bytes), missing or
malformed continuation bytes, overlong encodings, surrogates and code points
above `0x10ffff`.  Returns the code point and the remaining input. -/
def utf8DecodeCharMulti (b : Nat) (bs : List Nat) : Option (Nat × List Nat) :=
  if b < 194 then none
  else if b < 224 then
    match bs with
    | b1 :: bs1 =>
      if 128 ≤ b1 ∧ b1 < 192 then
        let c := (b - 192) * 64 + (b1 - 128)
        if c < 128 then none else some (c, bs1)
      else none
    | [] => none
  else if b < 240 then
    match bs with
    | b1 :: b2 :: bs2 =>
      if 128 ≤ b1 ∧ b1 < 192 ∧ 128 ≤ b2 ∧ b2 < 192 then
        let c := (b - 224) * 4096 + (b1 - 128) * 64 + (b2 - 128)
        if c < 2048 ∨ (55296 ≤ c ∧ c < 57344) then none else some (c, bs2)
      else none
    | _ => none
  else if b < 245 then
    match bs with
    | b1 :: b2 :: b3 :: bs3 =>
      if 128 ≤ b1 ∧ b1 < 192 ∧ 128 ≤ b2 ∧ b2 < 192 ∧ 128 ≤ b3 ∧ b3 < 192 then
        let c := (b - 240) * 262144 + (b1 - 128) * 4096 + (b2 - 128) * 64 + (b3 - 128)
        if c < 65536 ∨ 1114111 < c then none else some (c, bs3)
      else none
    | _ => none
  else none

/-- Decode one code point from the head of the input. -/
def utf8DecodeChar : List Nat → Option (Nat × List Nat)
  | [] => none
  | b :: bs => if b < 128 then some (b, bs) else utf8DecodeCharMulti b bs

def optCons (c : Nat) : Option (List Nat) → Option (List Nat)
  | some s => some (c :: s)
  | none => none

/-- The decoding loop; the fuel only drives the recursion (each decoded
character consumes at least one byte, so any fuel above the input length —
`utf8Decode` passes `length + 1` — gives the limit behaviour). -/
def utf8DecodeF : Nat → List Nat → Option (List Nat)
  | 0, _ => none
  | _+1, [] => some []
  | f+1, b :: bs =>
    match utf8DecodeChar (b :: bs) with
    | some (c, rest) => optCons c (utf8DecodeF f rest)
    | none => none

/-- Strict UTF-8 decoding, `bytes.decode("utf-8")`; `none` models the
`UnicodeDecodeError`. -/
def utf8Decode (s : List Nat) : Option (List Nat) := utf8DecodeF (s.length + 1) s

/-! ### Parsing: `json.loads`

A recursive-descent parser over code points, mirroring the stdlib scanner:
leading/inter-token whitespace is skipped, the value grammar is dispatched on
the first character, strings understand the standard escapes including
`\uXXXX` with surrogate-pair recombination, and numbers follow the scanner
regex `-?(0|[1-9][0-9]*)` (a following `.`/`e`/`E` would start the
floating-point part, which is outside this model).  The recursion is driven
by a fuel argument; every recursive call consumes at least one input
character, so any fuel above the input length yields the parser's limit
behaviour (`loads` passes `length + 1`). -/

def isWsChar (c : Nat) : Bool := c = 32 || c = 9 || c = 10 || c = 13

def skipWs : List Nat → List Nat
  | [] => []
  | c :: s => if isWsChar c then skipWs s else c :: s

/-- Value of one hex digit (the decoder accepts both cases). -/
def hexVal (c : Nat) : Option Nat :=
  if 48 ≤ c ∧ c ≤ 57 then some (c - 48)
  else if 97 ≤ c ∧ c ≤ 102 then some (c - 87)
  else if 65 ≤ c ∧ c ≤ 70 then some (c - 55)
  else none

/-- Greedy run of decimal digits, accumulating their value. -/
def digitsAux : Nat → List Nat → Nat × List Nat
  | acc, [] => (acc, [])
  | acc, c :: s =>
    if 48 ≤ c ∧ c ≤ 57 then digitsAux (acc * 10 + (c - 48)) s else (acc, c :: s)

/-- The integer magnitude `0|[1-9][0-9]*`: a leading `0` never extends. -/
def parseMag : List Nat → Option (Nat × List Nat)
  | [] => none
  | c :: s =>
    if c = 48 then some (0, s)
    else if 49 ≤ c ∧ c ≤ 57 then some (digitsAux (c - 48) s)
    else none

/-- Does the rest start a fractional part or exponent?  (Floats are outside
this model; the stdlib would parse them to a Python float here.) -/
def floatish : List Nat → Bool
  | [] => false
  | c :: _ => c = 46 || c = 101 || c = 69

/-- Does the rest of the input end the number token?  (Used to state the
printer/parser lemmas: a digit would extend the magnitude, a `.`/`e`/`E`
would start the float part.) -/
def numStop (s : List Nat) : Bool :=
  match s with
  | [] => true
  | c :: _ => if (48 ≤ c ∧ c ≤ 57) ∨ c = 46 ∨ c = 101 ∨ c = 69 then false else true

def parseNum : List Nat → Option (Json × List Nat)
  | [] => none
  | c :: s =>
    if c = 45 then
      match parseMag s with
      | some (n, r) => if floatish r then none else some (.num (-(n : Int)), r)
      | none => none
    else
      match parseMag (c :: s) with
      | some (n, r) => if floatish r then none else some (.num (n : Int), r)
      | none => none

def mapConsChar (c : Nat) : Option (List Nat × List Nat) → Option (List Nat × List Nat)
  | some (cs, r) => some (c :: cs, r)
  | none => none

/-- String body after the opening quote: returns the decoded code points and
the input after the closing quote.  Unescaped control characters are
rejected (`strict=True`); a `\uXXXX` high surrogate immediately followed by
an escaped low surrogate is recombined, otherwise the lone surrogate is kept
as Python does.  The fuel only drives the recursion: every recursive call
consumes at least one input character, so any fuel above the input length
(`parseStr` passes `length + 1`) gives the limit behaviour. -/
def parseStrF : Nat → List Nat → Option (List Nat × List Nat)
  | 0, _ => none
  | _+1, [] => none
  | f+1, c :: s =>
    if c = 34 then some ([], s)
    else if c = 92 then
      match s with
      | [] => none
      | e :: s1 =>
        if e = 34 then mapConsChar 34 (parseStrF f s1)
        else if e = 92 then mapConsChar 92 (parseStrF f s1)
        else if e = 47 then mapConsChar 47 (parseStrF f s1)
        else if e = 98 then mapConsChar 8 (parseStrF f s1)
        else if e = 102 then mapConsChar 12 (parseStrF f s1)
        else if e = 110 then mapConsChar 10 (parseStrF f s1)
        else if e = 114 then mapConsChar 13 (parseStrF f s1)
        else if e = 116 then mapConsChar 9 (parseStrF f s1)
        else if e = 117 then
          match s1 with
          | a :: b :: g :: d :: s2 =>
            match hexVal a, hexVal b, hexVal g, hexVal d with
            | some h3, some h2, some h1, some h0 =>
              let h := h3 * 4096 + h2 * 256 + h1 * 16 + h0
              if 55296 ≤ h ∧ h < 56320 then
                match s2 with
                | 92 :: 117 :: a2 :: b2 :: g2 :: d2 :: s3 =>
                  match hexVal a2, hexVal b2, hexVal g2, hexVal d2 with
                  | some l3, some l2, some l1, some l0 =>
                    let l := l3 * 4096 + l2 * 256 + l1 * 16 + l0
                    if 56320 ≤ l ∧ l < 57344 then
                      mapConsChar (65536 + (h - 55296) * 1024 + (l - 56320)) (parseStrF f s3)
                    else mapConsChar h (parseStrF f s2)
                  | _, _, _, _ => mapConsChar h (parseStrF f s2)
                | _ => mapConsChar h (parseStrF f s2)
              else mapConsChar h (parseStrF f s2)
            | _, _, _, _ => none
          | _ => none
        else none
    else if c < 32 then none
    else mapConsChar c (parseStrF f s)

/-- The string scanner at its limit fuel. -/
def parseStr (s : List Nat) : Option (List Nat × List Nat) := parseStrF (s.length + 1) s

/-- Which production the fueled parser is working on: a value, the
`, elem ... ]` continuation of an array, or the `, "key": value ... }`
continuation of an object. -/
inductive PMode where
  | val : PMode
  | elems : PMode
  | members : PMode

/-- Turn a parsed string body into a string value. -/
def strRes : Option (List Nat × List Nat) → Option (Json × List Nat)
  | some (cs, r) => some (.str cs, r)
  | none => none

/-- Prepend a parsed element to the array parsed by the continuation. -/
def arrConsRes (v : Json) : Option (Json × List Nat) → Option (Json × List Nat)
  | some (.arr vs, r) => some (.arr (.cons v vs), r)
  | _ => none

/-- Prepend a parsed member to the object parsed by the continuation. -/
def objConsRes (k : List Nat) (v : Json) : Option (Json × List Nat) → Option (Json × List Nat)
  | some (.obj kvs, r) => some (.obj (.cons k v kvs), r)
  | _ => none

def parseF : Nat → PMode → List Nat → Option (Json × List Nat)
  | 0, _, _ => none
  | f+1, .val, s =>
    match s with
    | [] => none
    | c :: r =>
      if c = 110 then
        match r with
        | 117 :: 108 :: 108 :: r2 => some (.null, r2)
        | _ => none
      else if c = 116 then
        match r with
        | 114 :: 117 :: 101 :: r2 => some (.bool true, r2)
        | _ => none
      else if c = 102 then
        match r with
        | 97 :: 108 :: 115 :: 101 :: r2 => some (.bool false, r2)
        | _ => none
      else if c = 34 then strRes (parseStr r)
      else if c = 91 then
        match skipWs r with
        | [] => none
        | c1 :: r1 =>
          if c1 = 93 then some (.arr .nil, r1)
          else
            (parseF f .val (c1 :: r1)).bind fun p =>
              arrConsRes p.1 (parseF f .elems (skipWs p.2))
      else if c = 123 then
        match skipWs r with
        | [] => none
        | c1 :: r1 =>
          if c1 = 125 then some (.obj .nil, r1)
          else if c1 = 34 then
            match parseStr r1 with
            | some (k, r2) =>
              match skipWs r2 with
              | 58 :: r3 =>
                (parseF f .val (skipWs r3)).bind fun p =>
                  objConsRes k p.1 (parseF f .members (skipWs p.2))
              | _ => none
            | none => none
          else none
      else parseNum (c :: r)
  | f+1, .elems, s =>
    match s with
    | [] => none
    | c :: r =>
      if c = 93 then some (.arr .nil, r)
      else if c = 44 then
        (parseF f .val (skipWs r)).bind fun p =>
          arrConsRes p.1 (parseF f .elems (skipWs p.2))
      else none
  | f+1, .members, s =>
    match s with
    | [] => none
    | c :: r =>
      if c = 125 then some (.obj .nil, r)
      else if c = 44 then
        match skipWs r with
        | 34 :: r1 =>
          match parseStr r1 with
          | some (k, r2) =>
            match skipWs r2 with
            | 58 :: r3 =>
              (parseF f .val (skipWs r3)).bind fun p =>
                objConsRes k p.1 (parseF f .members (skipWs p.2))
            | _ => none
          | none => none
        | _ => none
      else none

/-- `json.loads`: parse one value surrounded by optional whitespace; anything
left over is the stdlib's "Extra data" error.  `none` models a raised
`json.JSONDecodeError`. -/
def loads (s : List Nat) : Option Json :=
  match parseF (s.length + 1) .val (skipWs s) with
  | some (v, r) => if skipWs r = [] then some v else none
  | none => none


end json

/-! ## Byte-level helpers shared by both shared-memory variants -/

/-- Little-endian 4-byte encoding of an unsigned 32-bit value ("native byte
order" of the x86 hosts). -/
def packLE4 (n : Nat) : List Nat :=
  [n % 256, n / 256 % 256, n / 65536 % 256, n / 16777216 % 256]

/-- Read the first four bytes back as an unsigned little-endian value. -/
def unpackLE4 (b0 b1 b2 b3 : Nat) : Nat :=
  b0 + 256 * b1 + 65536 * b2 + 16777216 * b3

/-! ## `shared_memoryPythonSystemV.py` — the ctypes variant -/

namespace CtShm

/-- What `SharedMemory.read` logs before returning `None` from its `except`
clause (the length-check `return None` is silent). -/
inductive ReadErr where
  | structErr : ReadErr
  | utf8Err : ReadErr
  | parseErr : ReadErr

/-- `SharedMemory.write(data)`: `json.dumps`, UTF-8 encode, `memset` the whole
segment to zero, `struct.pack_into("=I", ...)` the length at offset 0, then
write the payload bytes at offsets `4..4+len`.  `none` models an exception
escaping `write` (the `except` clause re-raises): `struct.error` when the
length does not fit an unsigned 32-bit field or the buffer is shorter than 4
bytes, `IndexError` when the payload does not fit the segment. -/
def write (size : Nat) (data : Json) : Option (List Nat) :=
  let json_bytes := json.utf8Encode (json.dumps data)
  if 4 ≤ size ∧ json_bytes.length < 4294967296 ∧ 4 + json_bytes.length ≤ size then
    some (packLE4 json_bytes.length ++ json_bytes ++ List.replicate (size - (4 + json_bytes.length)) 0)
  else none

/-- The body of `SharedMemory.read`'s `try` block over the mapped buffer:
`struct.unpack_from("=I")` (raises on a buffer shorter than 4 bytes), the
length validation `length <= 0 or length > size - 4` (an unsigned length is
never negative, so `<= 0` is `= 0`) whose failure is the early `return None`
(`.ok none` here), then the UTF-8 decode and `json.loads` of exactly
`length` payload bytes. -/
def readBody (buf : List Nat) : Except ReadErr (Option Json) :=
  match buf with
  | b0 :: b1 :: b2 :: b3 :: rest =>
    let length := unpackLE4 b0 b1 b2 b3
    if length = 0 ∨ rest.length < length then .ok none
    else
      match json.utf8Decode (rest.take length) with
      | none => .error .utf8Err
      | some data_str =>
        match json.loads data_str with
        | none => .error .parseErr
        | some v => .ok (some v)
  | _ => .error .structErr

/-- `SharedMemory.read()`: the`try`/`except` wrapper.  First component: the
value returned to the caller; second: the error printed by the `except`
clause (`none` when nothing was caught — in particular the length-check
`return None` is the silent "no data" outcome `(none, none)`). -/
def read (buf : List Nat) : Option Json × Option ReadErr :=
  match readBody buf with
  | .ok r => (r, none)
  | .error e => (none, some e)

/-- A `SharedMemory` instance's mutable state: the attached buffer (`memory`)
and segment id, both `None` after cleanup.  The buffer content itself lives
in the kernel object and is not part of the handle. -/
structure Handle where
  memory : Option Nat
  shmid : Option Nat

/-- The libc calls `cleanup` can issue. -/
inductive OsCall where
  | shmdt : OsCall
  | shmctlRmid : OsCall

/-- What `cleanup` prints. -/
inductive CleanupLog where
  | shmdtFailed : CleanupLog
  | shmctlFailed : CleanupLog
  | cleanupDone : CleanupLog

/-- `SharedMemory.cleanup()`: guarded by `if self.memory:`; on the attached
side it calls `shmdt` and `shmctl(IPC_RMID)`, printing (never raising) when
either returns `-1`, and the `finally` clause resets `memory` and `shmid` to
`None`.  The two booleans are the outcomes of the two libc calls; the result
lists the libc calls issued and the lines printed.  There is no error
outcome: every failure is printed and swallowed. -/
def cleanup (h : Handle) (shmdtOk shmctlOk : Bool) :
    Handle × List OsCall × List CleanupLog :=
  match h.memory with
  | none => (h, [], [])
  | some _ =>
    (⟨none, none⟩, [.shmdt, .shmctlRmid],
      (if shmdtOk then [] else [.shmdtFailed])
        ++ (if shmctlOk then [] else [.shmctlFailed]) ++ [.cleanupDone])

end CtShm

/-! ## The kernel's segment table and `shmget(2)` -/

/-- The kernel's System-V shared-memory state: a table of segments
`(shmid, key, size)` and the next free id. -/
structure Kernel where
  segs : List (Nat × Nat × Nat)
  nextId : Nat

def Kernel.findKey (k : Kernel) (key : Nat) : Option (Nat × Nat) :=
  match k.segs.find? (fun s => s.2.1 == key) with
  | some s => some (s.1, s.2.2)
  | none => none

inductive Errno where
  | EEXIST : Errno
  | ENOENT : Errno
  | EINVAL : Errno

def IPC_CREAT : Nat := 512
def IPC_EXCL : Nat := 1024

/-- Modelled from `shmget(2)`: if a segment for `key` exists, return its id —
unless `IPC_CREAT|IPC_EXCL` was given (`EEXIST`) or the requested `size` is
greater than the size of the existing segment (`EINVAL`).  If no segment
exists, create one when `IPC_CREAT` is set, else fail with `ENOENT`.
Permission bits do not matter in this model (all segments are `0o666`). -/
def shmget (k : Kernel) (key size flags : Nat) : Kernel × Except Errno Nat :=
  match k.findKey key with
  | some (id, sz) =>
    if flags.testBit 9 ∧ flags.testBit 10 then (k, .error .EEXIST)
    else if sz < size then (k, .error .EINVAL)
    else (k, .ok id)
  | none =>
    if flags.testBit 9 then
      (⟨(k.nextId, key, size) :: k.segs, k.nextId + 1⟩, .ok k.nextId)
    else (k, .error .ENOENT)

namespace CtShm

/-- `SharedMemory.init` of the ctypes variant:
`shmget(key, size, IPC_CREAT | 0o666)` — `512 + 438 = 950`; a `-1` return
becomes a raised `OSError` (`.error`).  (The subsequent `shmat` only maps the
segment and is not modelled.) -/
def init (k : Kernel) (key size : Nat) : Kernel × Except Errno Nat :=
  shmget k key size 950

end CtShm

/-! ## `py_ipc.py` — the sysv_ipc variant -/

namespace PyShm

/-- The exceptions the sysv_ipc variant's operations can raise. -/
inductive PyErr where
  | packErr : PyErr
  | writeOob : PyErr
  | readOob : PyErr
  | utf8Err : PyErr
  | parseErr : PyErr

/-- `struct.pack("i", m)`: a signed 32-bit little-endian field;
`struct.error` outside `-2^31 .. 2^31 - 1`. -/
def pack_i (m : Int) : Except PyErr (List Nat) :=
  if -2147483648 ≤ m ∧ m < 2147483648 then .ok (packLE4 (m % 4294967296).toNat)
  else .error .packErr

/-- `struct.unpack("i", b)` on a 4-byte field: little-endian, then sign. -/
def unpack_i (b : List Nat) : Int :=
  match b with
  | [b0, b1, b2, b3] =>
    let u := unpackLE4 b0 b1 b2 b3
    if u < 2147483648 then (u : Int) else (u : Int) - 4294967296
  | _ => 0

/-- Modelled from the documented semantics of
`sysv_ipc.SharedMemory.write(data, offset)`: copies the bytes into the
segment at `offset`, raising when they would not fit.  There is no
zero-filling: bytes outside the written range keep their previous values. -/
def svWrite (buf : List Nat) (data : List Nat) (offset : Nat) : Except PyErr (List Nat) :=
  if offset + data.length ≤ buf.length then
    .ok (buf.take offset ++ data ++ buf.drop (offset + data.length))
  else .error .writeOob

/-- Modelled from the documented semantics of
`sysv_ipc.SharedMemory.read(byte_count, offset)`: `byte_count = 0` reads from
`offset` to the end of the segment; a negative count or one extending past
the end raises. -/
def svRead (buf : List Nat) (count : Int) (offset : Nat) : Except PyErr (List Nat) :=
  if buf.length < offset then .error .readOob
  else if count = 0 then .ok (buf.drop offset)
  else if count < 0 ∨ (buf.length : Int) - (offset : Int) < count then .error .readOob
  else .ok ((buf.drop offset).take count.toNat)

/-- `SharedMemory.write(data)` of `py_ipc.py`: dumps to JSON, UTF-8 encodes,
packs the length with `struct.pack("i", ...)` and writes length then payload
into the segment (`buf` is the segment's previous content).  No zero-fill:
stale bytes beyond `4 + len` survive. -/
def write (buf : List Nat) (data : Json) : Except PyErr (List Nat) :=
  let json_bytes := json.utf8Encode (json.dumps data)
  (pack_i json_bytes.length).bind fun length_bytes =>
    (svWrite buf length_bytes 0).bind fun buf1 =>
      svWrite buf1 json_bytes 4

/-- `SharedMemory.read()` of `py_ipc.py`: reads 4 length bytes, unpacks them
as a *signed* int, and reads that many payload bytes with **no validation**
— a zero, negative or oversized length is passed straight to the segment
read — then UTF-8 decodes and `json.loads`.  Every failure is a raised
exception (`.error`); there is no "no data" return. -/
def read (buf : List Nat) : Except PyErr Json :=
  (svRead buf 4 0).bind fun length_bytes =>
    (svRead buf (unpack_i length_bytes) 4).bind fun data_bytes =>
      match json.utf8Decode data_bytes with
      | none => .error .utf8Err
      | some json_str =>
        match json.loads json_str with
        | none => .error .parseErr
        | some v => .ok v

/-- `SharedMemory.init` of `py_ipc.py`:
`sysv_ipc.SharedMemory(key, IPC_CREAT | 0o666, size=size)` maps to
`shmget(key, size, IPC_CREAT | 0o666)`; `sysv_ipc.ExistentialError`
(`EEXIST`) triggers the attach-only fallback `sysv_ipc.SharedMemory(key)`
(`shmget(key, 0, 0)`).  With `IPC_CREAT` and no `IPC_EXCL`, `EEXIST` cannot
actually occur; any other failure propagates. -/
def init (k : Kernel) (key size : Nat) : Kernel × Except Errno Nat :=
  match shmget k key size 950 with
  | (k1, .error .EEXIST) => shmget k1 key 0 0
  | r => r

/-- A `py_ipc.py` handle: just the `memory` attribute. -/
structure Handle where
  memory : Option Nat

/-- `SharedMemory.cleanup()` of `py_ipc.py`: guarded by `if self.memory:`;
detaches, then attempts `remove()` under `try
 except: pass` — the removal
outcome (the final `Bool`: did the kernel object get removed?) never
surfaces.  Note `memory` is *not* reset. -/
def cleanup (h : Handle) (removeOk : Bool) : Handle × List CtShm.OsCall × Bool :=
  match h.memory with
  | none => (h, [], false)
  | some _ => (h, [.shmdt, .shmctlRmid], removeOk)

end PyShm

/-! ## `old/python/python_IPC.py` — the socket server -/

namespace IPCServer

/-- Failure modes of one request/response exchange, standing for the Python
exception caught by the handler (`str(e)` becomes the `message` field). -/
inductive SrvErr where
  | badUtf8 : SrvErr
  | badJson : SrvErr
  | notDict : SrvErr
  | missingData : SrvErr
  | badMul : SrvErr

def statusKey : List Nat := [115, 116, 97, 116, 117, 115]
def successTxt : List Nat := [115, 117, 99, 99, 101, 115, 115]
def errorTxt : List Nat := [101, 114, 114, 111, 114]
def dataKey : List Nat := [100, 97, 116, 97]
def messageKey : List Nat := [109, 101, 115, 115, 97, 103, 101]

/-- `str(e)` of the caught exception; for the `KeyError` of a missing
`"data"` field Python prints the key in quotes.  The other texts stand for
the respective exception messages. -/
def errMsgText : SrvErr → List Nat
  | .missingData => [39, 100, 97, 116, 97, 39]
  | .badUtf8 => [117, 116, 102, 56]
  | .badJson => [106, 115, 111, 110]
  | .notDict => [116, 121, 112, 101]
  | .badMul => [116, 121, 112, 101]

/-- Python dict lookup on the decoded object: with repeated keys
`json.loads` keeps the last occurrence, so the lookup is last-wins. -/
def getKeyAux : JObj → List Nat → Option Json → Option Json
  | .nil, _, acc => acc
  | .cons k v kvs, key, acc => getKeyAux kvs key (if k = key then some v else acc)

def getKey (kvs : JObj) (key : List Nat) : Option Json := getKeyAux kvs key none

def jarrAppend : JArr → JArr → JArr
  | .nil, ys => ys
  | .cons x xs, ys => .cons x (jarrAppend xs ys)

/-- Python's `value * 2` on a JSON-decoded value: numbers double, strings and
lists concatenate with themselves, booleans are ints (`True * 2 == 2`), and
`None * 2` or `dict * 2` raise `TypeError`. -/
def times2 : Json → Except SrvErr Json
  | .num n => .ok (.num (n * 2))
  | .str s => .ok (.str (s ++ s))
  | .arr xs => .ok (.arr (jarrAppend xs xs))
  | .bool b => .ok (.num (if b then 2 else 0))
  | .null => .error .badMul
  | .obj _ => .error .badMul

/-- `message["data"] * 2`: subscripting a non-dict raises `TypeError`, a
missing key raises `KeyError("data")`. -/
def processData : Json → Except SrvErr Json
  | .obj kvs =>
    match getKey kvs dataKey with
    | some d => times2 d
    | none => .error .missingData
  | _ => .error .notDict

/-- One received chunk: `data.decode()` then `json.loads(...)`, then the
processing; any exception is caught by the handler. -/
def handleChunk (chunk : List Nat) : Except SrvErr Json :=
  match json.utf8Decode chunk with
  | none => .error .badUtf8
  | some s =>
    match json.loads s with
    | none => .error .badJson
    | some msg => processData msg

def successResp (d : Json) : Json :=
  .obj (.cons statusKey (.str successTxt) (.cons dataKey d .nil))

def errorResp (e : SrvErr) : Json :=
  .obj (.cons statusKey (.str errorTxt) (.cons messageKey (.str (errMsgText e)) .nil))

/-- The per-connection receive loop of `IPCServer.run`: the input list is the
sequence of chunks `recv` yields (the list ending = the peer closing).  An
empty chunk breaks the loop (`if not data: break`).  On success the reply is
sent and the loop continues; on any exception the error reply is sent and
then the handler **break**s out of the loop, ending the connection. -/
def run : List (List Nat) → List Json
  | [] => []
  | chunk :: rest =>
    if chunk = [] then []
    else
      match handleChunk chunk with
      | .ok d => successResp d :: run rest
      | .error e => [errorResp e]

end IPCServer

/-! ## Lemmas

Everything below is proof; no further definitions except concrete demo
values referenced by several statements. -/

namespace json

/-! ### Decimal printing and number parsing -/

theorem natToDecAux_irrel : ∀ f g n, n < f → n < g → natToDecAux f n = natToDecAux g n := by
  intro f
  induction f with
  | zero => intro g n hf; omega
  | succ f ih =>
    intro g n hf hg
    cases g with
    | zero => omega
    | succ g =>
      simp only [natToDecAux]
      by_cases h : n < 10
      · simp [h]
      · simp only [h, if_false]
        rw [ih g (n / 10) (by omega) (by omega)]

theorem natToDec_unfold (n : Nat) :
    natToDec n = if n < 10 then [48 + n] else natToDec (n / 10) ++ [48 + n % 10] := by
  show natToDecAux (n + 1) n = _
  simp only [natToDecAux]
  by_cases h : n < 10
  · simp [h]
  · simp only [h, if_false]
    rw [natToDecAux_irrel n (n / 10 + 1) (n / 10) (by omega) (by omega)]
    rfl

theorem natToDec_digits : ∀ n, ∀ c ∈ natToDec n, 48 ≤ c ∧ c ≤ 57 := by
  intro n
  induction n using Nat.strong_induction_on with
  | _ n ih =>
    intro c hc
    rw [natToDec_unfold] at hc
    by_cases h : n < 10
    · simp [h] at hc; omega
    · simp only [h, if_false, List.mem_append, List.mem_singleton] at hc
      rcases hc with hc | hc
      · exact ih (n / 10) (by omega) c hc
      · omega

theorem natToDec_head : ∀ n, ∃ c t, natToDec n = c :: t ∧ 48 ≤ c ∧ c ≤ 57 ∧ (0 < n → 49 ≤ c) := by
  intro n
  induction n using Nat.strong_induction_on with
  | _ n ih =>
    rw [natToDec_unfold]
    by_cases h : n < 10
    · exact ⟨48 + n, [], by simp [h], by omega, by omega, by omega⟩
    · obtain ⟨c, t, ht, h1, h2, h3⟩ := ih (n / 10) (by omega)
      exact ⟨c, t ++ [48 + n % 10], by simp [h, ht], h1, h2, fun _ => h3 (by omega)⟩

theorem floatish_of_numStop {rest : List Nat} (h : numStop rest = true) :
    floatish rest = false := by
  cases rest with
  | nil => rfl
  | cons c t =>
    simp only [numStop] at h
    simp only [floatish]
    split at h
    · exact absurd h (by simp)
    · rename_i hcond
      push_neg at hcond
      simp [hcond.2.1, hcond.2.2.1, hcond.2.2.2]

theorem digitsAux_digits : ∀ ds : List Nat, ∀ a (rest : List Nat),
    (∀ d ∈ ds, 48 ≤ d ∧ d ≤ 57) → numStop rest = true →
    digitsAux a (ds ++ rest) = (ds.foldl (fun x d => x * 10 + (d - 48)) a, rest) := by
  intro ds
  induction ds with
  | nil =>
    intro a rest _ hstop
    cases rest with
    | nil => rfl
    | cons c t =>
      simp only [numStop] at hstop
      simp only [List.nil_append, List.foldl_nil, digitsAux]
      split at hstop
      · exact absurd hstop (by simp)
      · rename_i hcond
        rw [if_neg (by tauto)]
  | cons d ds ih =>
    intro a rest hds hstop
    have hd := hds d (by simp)
    simp only [List.cons_append, digitsAux, List.foldl_cons]
    rw [if_pos hd]
    exact ih _ rest (fun x hx => hds x (by simp [hx])) hstop

theorem foldl_natToDec : ∀ n a,
    (natToDec n).foldl (fun x d => x * 10 + (d - 48)) a = a * 10 ^ (natToDec n).length + n := by
  intro n
  induction n using Nat.strong_induction_on with
  | _ n ih =>
    intro a
    rw [natToDec_unfold]
    by_cases h : n < 10
    · simp only [h, if_true, List.foldl_cons, List.foldl_nil, List.length_cons,
        List.length_nil, pow_one, zero_add]
      omega
    · simp only [h, if_false, List.foldl_append, List.foldl_cons, List.foldl_nil,
        List.length_append, List.length_cons, List.length_nil, zero_add]
      rw [ih (n / 10) (by omega) a]
      have hm : 48 + n % 10 - 48 = n % 10 := by omega
      rw [hm, pow_succ]
      have hdm : n / 10 * 10 + n % 10 = n := by omega
      calc (a * 10 ^ (natToDec (n / 10)).length + n / 10) * 10 + n % 10
      _ = a * (10 ^ (natToDec (n / 10)).length * 10) + (n / 10 * 10 + n % 10) := by ring
      _ = a * (10 ^ (natToDec (n / 10)).length * 10) + n := by rw [hdm]

theorem parseMag_natToDec (n : Nat) (rest : List Nat) (hstop : numStop rest = true) :
    parseMag (natToDec n ++ rest) = some (n, rest) := by
  obtain ⟨c, t, ht, h1, h2, h3⟩ := natToDec_head n
  by_cases h0 : n = 0
  · subst h0
    rfl
  · rw [ht]
    simp only [List.cons_append, parseMag]
    rw [if_neg (by omega), if_pos (by omega : 49 ≤ c ∧ c ≤ 57)]
    have htd : ∀ d ∈ t, 48 ≤ d ∧ d ≤ 57 := by
      intro d hd
      exact natToDec_digits n d (by rw [ht]; simp [hd])
    rw [digitsAux_digits t (c - 48) rest htd hstop]
    have : t.foldl (fun x d => x * 10 + (d - 48)) (c - 48) = n := by
      have hfold := foldl_natToDec n 0
      rw [ht] at hfold
      simpa using hfold
    rw [this]

theorem parseNum_intRepr (i : Int) (rest : List Nat) (hstop : numStop rest = true) :
    parseNum (intRepr i ++ rest) = some (.num i, rest) := by
  by_cases hneg : i < 0
  · have h1 : intRepr i ++ rest = 45 :: (natToDec i.natAbs ++ rest) := by
      simp [intRepr, if_pos hneg]
    rw [h1]
    simp only [parseNum, eq_self_iff_true, if_true]
    rw [parseMag_natToDec i.natAbs rest hstop]
    simp only [floatish_of_numStop hstop, Bool.false_eq_true, if_false]
    have : -(i.natAbs : Int) = i := by omega
    rw [this]
  · simp only [intRepr, if_neg hneg]
    obtain ⟨c, t, ht, h1, h2, _⟩ := natToDec_head i.toNat
    rw [ht]
    simp only [List.cons_append, parseNum]
    rw [if_neg (by omega : ¬c = 45), ← List.cons_append, ← ht,
      parseMag_natToDec i.toNat rest hstop]
    simp only [floatish_of_numStop hstop, Bool.false_eq_true, if_false]
    have : (i.toNat : Int) = i := by omega
    rw [this]

end json

namespace json

/-! ### The string scanner inverts the string encoder -/

theorem hexVal_hexDigit (d : Nat) (hd : d < 16) : hexVal (hexDigit d) = some d := by
  simp only [hexVal, hexDigit]
  by_cases h : d < 10
  · rw [if_pos h, if_pos (by omega)]
    congr 1
    omega
  · rw [if_neg h, if_neg (by omega), if_pos (by omega)]
    congr 1
    omega

/-- Parsing one non-surrogate `\uXXXX` escape. -/
theorem parseStrF_escU (n : Nat) (hn : n < 65536) (hsur : ¬(55296 ≤ n ∧ n < 56320))
    (f : Nat) (T : List Nat) :
    parseStrF (f + 1) (escU n ++ T) = mapConsChar n (parseStrF f T) := by
  have e3 := hexVal_hexDigit (n / 4096 % 16) (by omega)
  have e2 := hexVal_hexDigit (n / 256 % 16) (by omega)
  have e1 := hexVal_hexDigit (n / 16 % 16) (by omega)
  have e0 := hexVal_hexDigit (n % 16) (by omega)
  have hval : n / 4096 % 16 * 4096 + n / 256 % 16 * 256 + n / 16 % 16 * 16 + n % 16 = n := by
    omega
  show parseStrF (f + 1)
    (92 :: 117 :: hexDigit (n / 4096 % 16) :: hexDigit (n / 256 % 16)
      :: hexDigit (n / 16 % 16) :: hexDigit (n % 16) :: T) = _
  simp only [parseStrF, e3, e2, e1, e0, hval]
  norm_num
  intro h1 h2
  exact absurd ⟨h1, h2⟩ hsur

/-- Parsing a high-surrogate `\uXXXX` escape immediately followed by a
low-surrogate one recombines them into one code point. -/
theorem parseStrF_escU_pair (hi lo : Nat) (hhi : 55296 ≤ hi ∧ hi < 56320)
    (hlo : 56320 ≤ lo ∧ lo < 57344) (f : Nat) (T : List Nat) :
    parseStrF (f + 1) (escU hi ++ (escU lo ++ T)) =
      mapConsChar (65536 + (hi - 55296) * 1024 + (lo - 56320)) (parseStrF f T) := by
  have e3 := hexVal_hexDigit (hi / 4096 % 16) (by omega)
  have e2 := hexVal_hexDigit (hi / 256 % 16) (by omega)
  have e1 := hexVal_hexDigit (hi / 16 % 16) (by omega)
  have e0 := hexVal_hexDigit (hi % 16) (by omega)
  have g3 := hexVal_hexDigit (lo / 4096 % 16) (by omega)
  have g2 := hexVal_hexDigit (lo / 256 % 16) (by omega)
  have g1 := hexVal_hexDigit (lo / 16 % 16) (by omega)
  have g0 := hexVal_hexDigit (lo % 16) (by omega)
  have hvalh : hi / 4096 % 16 * 4096 + hi / 256 % 16 * 256 + hi / 16 % 16 * 16 + hi % 16 = hi := by
    omega
  have hvall : lo / 4096 % 16 * 4096 + lo / 256 % 16 * 256 + lo / 16 % 16 * 16 + lo % 16 = lo := by
    omega
  show parseStrF (f + 1)
    (92 :: 117 :: hexDigit (hi / 4096 % 16) :: hexDigit (hi / 256 % 16)
      :: hexDigit (hi / 16 % 16) :: hexDigit (hi % 16)
      :: (92 :: 117 :: hexDigit (lo / 4096 % 16) :: hexDigit (lo / 256 % 16)
      :: hexDigit (lo / 16 % 16) :: hexDigit (lo % 16) :: T)) = _
  simp only [parseStrF, e3, e2, e1, e0, g3, g2, g1, g0, hvalh, hvall]
  norm_num
  rw [if_pos hhi, if_pos hlo]

theorem parseStrF_escaped : ∀ (s : List Nat), wfStr s = true → ∀ (f : Nat) (rest : List Nat),
    ((s.map escapeChar).flatten ++ 34 :: rest).length < f →
    parseStrF f ((s.map escapeChar).flatten ++ 34 :: rest) = some (s, rest) := by
  intro s
  induction s with
  | nil =>
    intro _ f rest hf
    simp only [List.map_nil, List.flatten_nil, List.nil_append] at hf ⊢
    cases f with
    | zero => omega
    | succ f => rfl
  | cons c s ih =>
    intro hwf f rest hf
    have hwc : wfChar c = true := by
      simp only [wfStr, List.all_cons, Bool.and_eq_true] at hwf
      exact hwf.1
    have hws : wfStr s = true := by
      simp only [wfStr, List.all_cons, Bool.and_eq_true] at hwf
      exact hwf.2
    have hcbig : c < 1114112 ∧ ¬(55296 ≤ c ∧ c < 57344) := by
      simp only [wfChar, Bool.and_eq_true, Bool.not_eq_eq_eq_not, Bool.not_true,
        decide_eq_true_eq, Bool.and_eq_false_iff, decide_eq_false_iff_not] at hwc
      constructor
      · exact hwc.1
      · rcases hwc.2 with h | h
        · omega
        · omega
    -- The input decomposes as `escapeChar c ++ T`.
    have hsplit : ((c :: s).map escapeChar).flatten ++ 34 :: rest
        = escapeChar c ++ ((s.map escapeChar).flatten ++ 34 :: rest) := by
      simp [List.append_assoc]
    set T := (s.map escapeChar).flatten ++ 34 :: rest with hT
    rw [hsplit]
    have hlenT : ∀ k, escapeChar c = k → T.length + k.length < f := by
      intro k hk
      rw [hsplit, hk] at hf
      simp only [List.length_append] at hf
      omega
    cases f with
    | zero =>
      exfalso
      have := hlenT _ rfl
      omega
    | succ f =>
    have hihT : ∀ g, T.length < g → parseStrF g T = some (s, rest) := fun g hg => ih hws g rest hg
    by_cases h34 : c = 34
    · subst h34
      have hstep : parseStrF (f + 1) ([92, 34] ++ T) = mapConsChar 34 (parseStrF f T) := rfl
      rw [show escapeChar 34 = [92, 34] from rfl, hstep,
        hihT f (by have := hlenT [92, 34] (by rfl); simp at this; omega)]
      rfl
    · by_cases h92 : c = 92
      · subst h92
        have hstep : parseStrF (f + 1) ([92, 92] ++ T) = mapConsChar 92 (parseStrF f T) := rfl
        rw [show escapeChar 92 = [92, 92] from rfl, hstep,
          hihT f (by have := hlenT [92, 92] (by rfl); simp at this; omega)]
        rfl
      · by_cases h8 : c = 8
        · subst h8
          have hstep : parseStrF (f + 1) ([92, 98] ++ T) = mapConsChar 8 (parseStrF f T) := rfl
          rw [show escapeChar 8 = [92, 98] from rfl, hstep,
            hihT f (by have := hlenT [92, 98] (by rfl); simp at this; omega)]
          rfl
        · by_cases h9 : c = 9
          · subst h9
            have hstep : parseStrF (f + 1) ([92, 116] ++ T) = mapConsChar 9 (parseStrF f T) := rfl
            rw [show escapeChar 9 = [92, 116] from rfl, hstep,
              hihT f (by have := hlenT [92, 116] (by rfl); simp at this; omega)]
            rfl
          · by_cases h10 : c = 10
            · subst h10
              have hstep : parseStrF (f + 1) ([92, 110] ++ T) = mapConsChar 10 (parseStrF f T) := rfl
              rw [show escapeChar 10 = [92, 110] from rfl, hstep,
                hihT f (by have := hlenT [92, 110] (by rfl); simp at this; omega)]
              rfl
            · by_cases h12 : c = 12
              · subst h12
                have hstep : parseStrF (f + 1) ([92, 102] ++ T) = mapConsChar 12 (parseStrF f T) := rfl
                rw [show escapeChar 12 = [92, 102] from rfl, hstep,
                  hihT f (by have := hlenT [92, 102] (by rfl); simp at this; omega)]
                rfl
              · by_cases h13 : c = 13
                · subst h13
                  have hstep : parseStrF (f + 1) ([92, 114] ++ T) = mapConsChar 13 (parseStrF f T) := rfl
                  rw [show escapeChar 13 = [92, 114] from rfl, hstep,
                    hihT f (by have := hlenT [92, 114] (by rfl); simp at this; omega)]
                  rfl
                · by_cases hctl : c < 32
                  · have hesc : escapeChar c = escU c := by
                      simp only [escapeChar, if_neg h34, if_neg h92, if_neg h8, if_neg h9,
                        if_neg h10, if_neg h12, if_neg h13, if_pos hctl]
                    rw [hesc, parseStrF_escU c (by omega) (by omega) f T,
                      hihT f (by have := hlenT _ hesc; simp [escU, hex4] at this; omega)]
                    rfl
                  · by_cases hprint : c < 127
                    · have hesc : escapeChar c = [c] := by
                        simp only [escapeChar, if_neg h34, if_neg h92, if_neg h8, if_neg h9,
                          if_neg h10, if_neg h12, if_neg h13, if_neg hctl, if_pos hprint]
                      rw [hesc]
                      show parseStrF (f + 1) (c :: T) = _
                      simp only [parseStrF, if_neg h34, if_neg h92, if_neg hctl]
                      rw [hihT f (by have := hlenT _ hesc; simp at this; omega)]
                      rfl
                    · by_cases hbmp : c < 65536
                      · have hesc : escapeChar c = escU c := by
                          simp only [escapeChar, if_neg h34, if_neg h92, if_neg h8, if_neg h9,
                            if_neg h10, if_neg h12, if_neg h13, if_neg hctl, if_neg hprint,
                            if_pos hbmp]
                        rw [hesc, parseStrF_escU c hbmp (by omega) f T,
                          hihT f (by have := hlenT _ hesc; simp [escU, hex4] at this; omega)]
                        rfl
                      · have hesc : escapeChar c
                            = escU (55296 + (c - 65536) / 1024) ++ escU (56320 + (c - 65536) % 1024) := by
                          simp only [escapeChar, if_neg h34, if_neg h92, if_neg h8, if_neg h9,
                            if_neg h10, if_neg h12, if_neg h13, if_neg hctl, if_neg hprint,
                            if_neg hbmp]
                        rw [hesc, List.append_assoc,
                          parseStrF_escU_pair _ _ ⟨by omega, by omega⟩ ⟨by omega, by omega⟩ f T]
                        have hcomb : 65536 + (55296 + (c - 65536) / 1024 - 55296) * 1024
                            + (56320 + (c - 65536) % 1024 - 56320) = c := by
                          omega
                        rw [hcomb, hihT f (by
                          have := hlenT _ hesc
                          simp [escU, hex4] at this
                          omega)]
                        rfl

/-- The scanner at its limit fuel inverts the body of `quoteStr`. -/
theorem parseStr_quoteBody (s : List Nat) (hwf : wfStr s = true) (rest : List Nat) :
    parseStr ((s.map escapeChar).flatten ++ 34 :: rest) = some (s, rest) :=
  parseStrF_escaped s hwf _ rest (by omega)

end json


namespace json

/-! ### Unfolding equations for the mutual serializer (all definitional) -/

theorem dumps_null : dumps .null = [110, 117, 108, 108] := rfl
theorem dumps_true : dumps (.bool true) = [116, 114, 117, 101] := rfl
theorem dumps_false : dumps (.bool false) = [102, 97, 108, 115, 101] := rfl
theorem dumps_num (n : Int) : dumps (.num n) = intRepr n := rfl
theorem dumps_str (s : List Nat) : dumps (.str s) = quoteStr s := rfl
theorem dumps_arr_nil : dumps (.arr .nil) = [91, 93] := rfl
theorem dumps_arr_cons (x : Json) (xs : JArr) :
    dumps (.arr (.cons x xs)) = 91 :: (dumps x ++ dumpsArr xs ++ [93]) := rfl
theorem dumps_obj_nil : dumps (.obj .nil) = [123, 125] := rfl
theorem dumps_obj_cons (k : List Nat) (v : Json) (kvs : JObj) :
    dumps (.obj (.cons k v kvs))
      = 123 :: (quoteStr k ++ [58, 32] ++ dumps v ++ dumpsObj kvs ++ [125]) := rfl
theorem dumpsArr_nil : dumpsArr .nil = [] := rfl
theorem dumpsArr_cons (x : Json) (xs : JArr) :
    dumpsArr (.cons x xs) = 44 :: 32 :: (dumps x ++ dumpsArr xs) := rfl
theorem dumpsObj_nil : dumpsObj .nil = [] := rfl
theorem dumpsObj_cons (k : List Nat) (v : Json) (kvs : JObj) :
    dumpsObj (.cons k v kvs) = 44 :: 32 :: (quoteStr k ++ [58, 32] ++ dumps v ++ dumpsObj kvs) := rfl

end json


namespace json

/-! ### UTF-8 is the identity on ASCII text (such as `dumps` output) -/

theorem utf8Encode_ascii : ∀ s : List Nat, (∀ c ∈ s, c < 128) → utf8Encode s = s := by
  intro s
  induction s with
  | nil => intro _; rfl
  | cons c s ih =>
    intro h
    have hc : c < 128 := h c (by simp)
    show utf8EncodeChar c ++ utf8Encode s = c :: s
    rw [utf8EncodeChar, if_pos hc, ih (fun x hx => h x (by simp [hx]))]
    rfl

theorem utf8DecodeF_ascii : ∀ (s : List Nat) (f : Nat), s.length < f →
    (∀ c ∈ s, c < 128) → utf8DecodeF f s = some s := by
  intro s
  induction s with
  | nil =>
    intro f hf _
    cases f with
    | zero => omega
    | succ f => rfl
  | cons c s ih =>
    intro f hf h
    have hc : c < 128 := h c (by simp)
    cases f with
    | zero => omega
    | succ f =>
      have hstep : utf8DecodeF (f + 1) (c :: s)
          = match utf8DecodeChar (c :: s) with
            | some (x, rest) => optCons x (utf8DecodeF f rest)
            | none => none := rfl
      rw [hstep, show utf8DecodeChar (c :: s) = if c < 128 then some (c, s)
          else utf8DecodeCharMulti c s from rfl, if_pos hc]
      show optCons c (utf8DecodeF f s) = some (c :: s)
      rw [ih f (by simp at hf; omega) (fun x hx => h x (by simp [hx]))]
      rfl

theorem utf8Decode_ascii (s : List Nat) (h : ∀ c ∈ s, c < 128) : utf8Decode s = some s :=
  utf8DecodeF_ascii s (s.length + 1) (by omega) h

/-! ### `dumps` output is ASCII -/

theorem hexDigit_lt (d : Nat) (h : d < 16) : hexDigit d < 128 := by
  simp only [hexDigit]
  split <;> omega

theorem escU_ascii (m y : Nat) (hy : y ∈ escU m) : y < 128 := by
  simp only [escU, hex4, List.mem_cons, List.not_mem_nil, or_false] at hy
  rcases hy with rfl | rfl | rfl | rfl | rfl | rfl
  · omega
  · omega
  · exact hexDigit_lt _ (by omega)
  · exact hexDigit_lt _ (by omega)
  · exact hexDigit_lt _ (by omega)
  · exact hexDigit_lt _ (by omega)

theorem escapeChar_ascii (c x : Nat) (hx : x ∈ escapeChar c) : x < 128 := by
  by_cases h1 : c = 34
  · subst h1; simp [escapeChar] at hx; omega
  by_cases h2 : c = 92
  · subst h2; simp [escapeChar] at hx; omega
  by_cases h3 : c = 8
  · subst h3; simp [escapeChar] at hx; omega
  by_cases h4 : c = 9
  · subst h4; simp [escapeChar] at hx; omega
  by_cases h5 : c = 10
  · subst h5; simp [escapeChar] at hx; omega
  by_cases h6 : c = 12
  · subst h6; simp [escapeChar] at hx; omega
  by_cases h7 : c = 13
  · subst h7; simp [escapeChar] at hx; omega
  by_cases h8 : c < 32
  · rw [escapeChar, if_neg h1, if_neg h2, if_neg h3, if_neg h4, if_neg h5, if_neg h6,
      if_neg h7, if_pos h8] at hx
    exact escU_ascii c x hx
  by_cases h9 : c < 127
  · rw [escapeChar, if_neg h1, if_neg h2, if_neg h3, if_neg h4, if_neg h5, if_neg h6,
      if_neg h7, if_neg h8, if_pos h9] at hx
    simp at hx
    omega
  by_cases h10 : c < 65536
  · rw [escapeChar, if_neg h1, if_neg h2, if_neg h3, if_neg h4, if_neg h5, if_neg h6,
      if_neg h7, if_neg h8, if_neg h9, if_pos h10] at hx
    exact escU_ascii c x hx
  · rw [escapeChar, if_neg h1, if_neg h2, if_neg h3, if_neg h4, if_neg h5, if_neg h6,
      if_neg h7, if_neg h8, if_neg h9, if_neg h10] at hx
    rcases List.mem_append.mp hx with h | h
    · exact escU_ascii _ x h
    · exact escU_ascii _ x h

theorem quoteStr_ascii (s : List Nat) (x : Nat) (hx : x ∈ quoteStr s) : x < 128 := by
  rcases List.mem_cons.mp hx with rfl | hx2
  · omega
  rcases List.mem_append.mp hx2 with h | h
  · obtain ⟨l, hl, hxl⟩ := List.mem_flatten.mp h
    obtain ⟨c, _, hfc⟩ := List.mem_map.mp hl
    exact escapeChar_ascii c x (by rw [hfc]; exact hxl)
  · rw [List.mem_singleton] at h
    omega

theorem intRepr_ascii (n : Int) (x : Nat) (hx : x ∈ intRepr n) : x < 128 := by
  by_cases h : n < 0
  · rw [intRepr, if_pos h] at hx
    rcases List.mem_cons.mp hx with rfl | h2
    · omega
    · have := natToDec_digits n.natAbs x h2
      omega
  · rw [intRepr, if_neg h] at hx
    have := natToDec_digits n.toNat x hx
    omega

mutual
theorem dumps_ascii : ∀ (v : Json) (c : Nat), c ∈ dumps v → c < 128
  | .null, c, hc => by rw [dumps_null] at hc; simp at hc; omega
  | .bool true, c, hc => by rw [dumps_true] at hc; simp at hc; omega
  | .bool false, c, hc => by rw [dumps_false] at hc; simp at hc; omega
  | .num n, c, hc => intRepr_ascii n c (by rwa [dumps_num] at hc)
  | .str s, c, hc => quoteStr_ascii s c (by rwa [dumps_str] at hc)
  | .arr .nil, c, hc => by rw [dumps_arr_nil] at hc; simp at hc; omega
  | .arr (.cons x xs), c, hc => by
    rw [dumps_arr_cons] at hc
    rcases List.mem_cons.mp hc with rfl | h2
    · omega
    rcases List.mem_append.mp h2 with h3 | h4
    · rcases List.mem_append.mp h3 with h | h
      · exact dumps_ascii x c h
      · exact dumpsArr_ascii xs c h
    · rw [List.mem_singleton] at h4; omega
  | .obj .nil, c, hc => by rw [dumps_obj_nil] at hc; simp at hc; omega
  | .obj (.cons k v kvs), c, hc => by
    rw [dumps_obj_cons] at hc
    rcases List.mem_cons.mp hc with rfl | h2
    · omega
    rcases List.mem_append.mp h2 with h3 | h4
    · rcases List.mem_append.mp h3 with h5 | h6
      · rcases List.mem_append.mp h5 with h7 | h8
        · rcases List.mem_append.mp h7 with h | h
          · exact quoteStr_ascii k c h
          · simp at h; omega
        · exact dumps_ascii v c h8
      · exact dumpsObj_ascii kvs c h6
    · rw [List.mem_singleton] at h4; omega
  termination_by structural v => v
theorem dumpsArr_ascii : ∀ (xs : JArr) (c : Nat), c ∈ dumpsArr xs → c < 128
  | .nil, c, hc => by rw [dumpsArr_nil] at hc; simp at hc
  | .cons x xs, c, hc => by
    rw [dumpsArr_cons] at hc
    rcases List.mem_cons.mp hc with rfl | h2
    · omega
    rcases List.mem_cons.mp h2 with rfl | h3
    · omega
    rcases List.mem_append.mp h3 with h | h
    · exact dumps_ascii x c h
    · exact dumpsArr_ascii xs c h
  termination_by structural xs => xs
theorem dumpsObj_ascii : ∀ (kvs : JObj) (c : Nat), c ∈ dumpsObj kvs → c < 128
  | .nil, c, hc => by rw [dumpsObj_nil] at hc; simp at hc
  | .cons k v kvs, c, hc => by
    rw [dumpsObj_cons] at hc
    rcases List.mem_cons.mp hc with rfl | h2
    · omega
    rcases List.mem_cons.mp h2 with rfl | h3
    · omega
    rcases List.mem_append.mp h3 with h5 | h6
    · rcases List.mem_append.mp h5 with h7 | h8
      · rcases List.mem_append.mp h7 with h | h
        · exact quoteStr_ascii k c h
        · simp at h; omega
      · exact dumps_ascii v c h8
    · exact dumpsObj_ascii kvs c h6
  termination_by structural kvs => kvs
end

/-- The first character a serialized value can start with: never whitespace,
never a closing bracket or brace. -/
theorem dumps_head (v : Json) :
    ∃ c t, dumps v = c :: t ∧ isWsChar c = false ∧ c ≠ 93 ∧ c ≠ 125 := by
  cases v with
  | null => exact ⟨110, _, dumps_null, rfl, by omega, by omega⟩
  | bool b => cases b with
    | true => exact ⟨116, _, dumps_true, rfl, by omega, by omega⟩
    | false => exact ⟨102, _, dumps_false, rfl, by omega, by omega⟩
  | num n =>
    rw [dumps_num]
    by_cases h : n < 0
    · refine ⟨45, natToDec n.natAbs, ?_, rfl, by omega, by omega⟩
      simp [intRepr, if_pos h]
    · obtain ⟨c, t, ht, h1, h2, _⟩ := natToDec_head n.toNat
      refine ⟨c, t, ?_, ?_, by omega, by omega⟩
      · simp [intRepr, if_neg h, ht]
      · simp [isWsChar]
        omega
  | str s => exact ⟨34, _, dumps_str s, rfl, by omega, by omega⟩
  | arr xs => cases xs with
    | nil => exact ⟨91, _, dumps_arr_nil, rfl, by omega, by omega⟩
    | cons x t => exact ⟨91, _, dumps_arr_cons x t, rfl, by omega, by omega⟩
  | obj kvs => cases kvs with
    | nil => exact ⟨123, _, dumps_obj_nil, rfl, by omega, by omega⟩
    | cons k v t => exact ⟨123, _, dumps_obj_cons k v t, rfl, by omega, by omega⟩

theorem skipWs_dumps (v : Json) (r : List Nat) : skipWs (dumps v ++ r) = dumps v ++ r := by
  obtain ⟨c, t, ht, hws, _, _⟩ := dumps_head v
  rw [ht]
  show skipWs (c :: (t ++ r)) = _
  simp [skipWs, hws]

theorem numStop_dumpsArr (xs : JArr) (r : List Nat) :
    numStop (dumpsArr xs ++ 93 :: r) = true := by
  cases xs <;> rfl

theorem numStop_dumpsObj (kvs : JObj) (r : List Nat) :
    numStop (dumpsObj kvs ++ 125 :: r) = true := by
  cases kvs <;> rfl

end json

namespace json

/-! ### Step lemmas for the fueled parser -/

theorem parseF_val_null (f : Nat) (r : List Nat) :
    parseF (f + 1) .val (110 :: 117 :: 108 :: 108 :: r) = some (.null, r) := rfl

theorem parseF_val_true (f : Nat) (r : List Nat) :
    parseF (f + 1) .val (116 :: 114 :: 117 :: 101 :: r) = some (.bool true, r) := rfl

theorem parseF_val_false (f : Nat) (r : List Nat) :
    parseF (f + 1) .val (102 :: 97 :: 108 :: 115 :: 101 :: r) = some (.bool false, r) := rfl

theorem parseF_val_str (f : Nat) (r : List Nat) :
    parseF (f + 1) .val (34 :: r) = strRes (parseStr r) := rfl

theorem parseF_val_num (f c : Nat) (r : List Nat) (h1 : ¬c = 110) (h2 : ¬c = 116)
    (h3 : ¬c = 102) (h4 : ¬c = 34) (h5 : ¬c = 91) (h6 : ¬c = 123) :
    parseF (f + 1) .val (c :: r) = parseNum (c :: r) := by
  simp only [parseF]
  rw [if_neg h1, if_neg h2, if_neg h3, if_neg h4, if_neg h5, if_neg h6]

theorem parseF_val_arr_nil (f : Nat) (r r1 : List Nat) (h : skipWs r = 93 :: r1) :
    parseF (f + 1) .val (91 :: r) = some (.arr .nil, r1) := by
  simp only [parseF, h]
  norm_num

theorem parseF_val_arr_cons (f c1 : Nat) (r r1 : List Nat) (h : skipWs r = c1 :: r1)
    (h93 : ¬c1 = 93) :
    parseF (f + 1) .val (91 :: r)
      = (parseF f .val (c1 :: r1)).bind fun p =>
          arrConsRes p.1 (parseF f .elems (skipWs p.2)) := by
  simp only [parseF, h]
  norm_num
  intro hc
  exact absurd hc h93

theorem parseF_val_obj_nil (f : Nat) (r r1 : List Nat) (h : skipWs r = 125 :: r1) :
    parseF (f + 1) .val (123 :: r) = some (.obj .nil, r1) := by
  simp only [parseF, h]
  norm_num

theorem parseF_val_obj_cons (f : Nat) (r r1 r2 r3 : List Nat) (k : List Nat)
    (h : skipWs r = 34 :: r1) (hk : parseStr r1 = some (k, r2)) (h58 : skipWs r2 = 58 :: r3) :
    parseF (f + 1) .val (123 :: r)
      = (parseF f .val (skipWs r3)).bind fun p =>
          objConsRes k p.1 (parseF f .members (skipWs p.2)) := by
  simp only [parseF, h, hk, h58]
  norm_num

theorem parseF_elems_nil (f : Nat) (r : List Nat) :
    parseF (f + 1) .elems (93 :: r) = some (.arr .nil, r) := rfl

theorem parseF_elems_cons (f : Nat) (r : List Nat) :
    parseF (f + 1) .elems (44 :: r)
      = (parseF f .val (skipWs r)).bind fun p =>
          arrConsRes p.1 (parseF f .elems (skipWs p.2)) := rfl

theorem parseF_members_nil (f : Nat) (r : List Nat) :
    parseF (f + 1) .members (125 :: r) = some (.obj .nil, r) := rfl

theorem parseF_members_cons (f : Nat) (r r1 r2 r3 : List Nat) (k : List Nat)
    (h : skipWs r = 34 :: r1) (hk : parseStr r1 = some (k, r2)) (h58 : skipWs r2 = 58 :: r3) :
    parseF (f + 1) .members (44 :: r)
      = (parseF f .val (skipWs r3)).bind fun p =>
          objConsRes k p.1 (parseF f .members (skipWs p.2)) := by
  simp only [parseF, h, hk, h58]
  norm_num

/-! ### Whitespace facts for the separators `dumps` emits -/

theorem skipWs_cons_notWs (c : Nat) (h : isWsChar c = false) (s : List Nat) :
    skipWs (c :: s) = c :: s := by
  simp [skipWs, h]

theorem skipWs_space (s : List Nat) : skipWs (32 :: s) = skipWs s := by
  simp [skipWs, isWsChar]

theorem skipWs_arrTail (xs : JArr) (rest : List Nat) :
    skipWs (dumpsArr xs ++ 93 :: rest) = dumpsArr xs ++ 93 :: rest := by
  cases xs with
  | nil => rw [dumpsArr_nil]; exact skipWs_cons_notWs 93 rfl rest
  | cons x t =>
    rw [dumpsArr_cons]
    exact skipWs_cons_notWs 44 rfl _

theorem skipWs_objTail (kvs : JObj) (rest : List Nat) :
    skipWs (dumpsObj kvs ++ 125 :: rest) = dumpsObj kvs ++ 125 :: rest := by
  cases kvs with
  | nil => rw [dumpsObj_nil]; exact skipWs_cons_notWs 125 rfl rest
  | cons k v t =>
    rw [dumpsObj_cons]
    exact skipWs_cons_notWs 44 rfl _

theorem intRepr_head (n : Int) :
    ∃ c t, intRepr n = c :: t ∧ (c = 45 ∨ 48 ≤ c ∧ c ≤ 57) := by
  by_cases h : n < 0
  · exact ⟨45, natToDec n.natAbs, by simp [intRepr, if_pos h], Or.inl rfl⟩
  · obtain ⟨c, t, ht, h1, h2, _⟩ := natToDec_head n.toNat
    exact ⟨c, t, by simp [intRepr, if_neg h, ht], Or.inr ⟨h1, h2⟩⟩

end json

namespace json

/-! ### The parser inverts the serializer on well-formed values -/

mutual
theorem parse_dumps (v : Json) : Wf v → ∀ (f : Nat) (rest : List Nat), numStop rest = true →
    (dumps v ++ rest).length < f → parseF f .val (dumps v ++ rest) = some (v, rest) :=
  match v with
  | .null => fun _ f rest _ hf => by
    rw [dumps_null] at hf ⊢
    cases f with
    | zero => omega
    | succ f => exact parseF_val_null f rest
  | .bool true => fun _ f rest _ hf => by
    rw [dumps_true] at hf ⊢
    cases f with
    | zero => omega
    | succ f => exact parseF_val_true f rest
  | .bool false => fun _ f rest _ hf => by
    rw [dumps_false] at hf ⊢
    cases f with
    | zero => omega
    | succ f => exact parseF_val_false f rest
  | .num n => fun _ f rest hstop hf => by
    rw [dumps_num] at hf ⊢
    cases f with
    | zero => omega
    | succ f =>
      obtain ⟨c, t, ht, hc⟩ := intRepr_head n
      rw [ht, List.cons_append,
        parseF_val_num f c (t ++ rest) (by omega) (by omega) (by omega) (by omega)
          (by omega) (by omega),
        ← List.cons_append, ← ht]
      exact parseNum_intRepr n rest hstop
  | .str s => fun hw f rest _ hf => by
    rw [dumps_str] at hf ⊢
    cases f with
    | zero => omega
    | succ f =>
      have hws : wfStr s = true := by cases hw with | str _ h => exact h
      have hin : quoteStr s ++ rest = 34 :: ((s.map escapeChar).flatten ++ 34 :: rest) := by
        simp [quoteStr]
      rw [hin, parseF_val_str, parseStr_quoteBody s hws rest]
      rfl
  | .arr .nil => fun _ f rest _ hf => by
    rw [dumps_arr_nil] at hf ⊢
    cases f with
    | zero => omega
    | succ f =>
      have hin : ([91, 93] : List Nat) ++ rest = 91 :: 93 :: rest := rfl
      rw [hin]
      exact parseF_val_arr_nil f (93 :: rest) rest (skipWs_cons_notWs 93 rfl rest)
  | .arr (.cons x xs) => fun hw f rest hstop hf => by
    have hx : Wf x := by
      cases hw with | arr _ h _ => cases h with | cons hx _ => exact hx
    have hxs : WfArr xs := by
      cases hw with | arr _ h _ => cases h with | cons _ hxs => exact hxs
    rw [dumps_arr_cons] at hf ⊢
    cases f with
    | zero => omega
    | succ f =>
      have hin : (91 :: (dumps x ++ dumpsArr xs ++ [93])) ++ rest
          = 91 :: (dumps x ++ (dumpsArr xs ++ 93 :: rest)) := by
        simp
      rw [hin]
      obtain ⟨c1, t1, ht1, hws1, h93, _⟩ := dumps_head x
      have hsplit : dumps x ++ (dumpsArr xs ++ 93 :: rest)
          = c1 :: (t1 ++ (dumpsArr xs ++ 93 :: rest)) := by
        rw [ht1]
        rfl
      rw [parseF_val_arr_cons f c1 _ _
        (by rw [skipWs_dumps x _]; exact hsplit) h93, ← hsplit]
      rw [parse_dumps x hx f (dumpsArr xs ++ 93 :: rest) (numStop_dumpsArr xs rest)
        (by simp at hf ⊢; omega)]
      show arrConsRes x (parseF f .elems (skipWs (dumpsArr xs ++ 93 :: rest))) = _
      rw [skipWs_arrTail xs rest,
        parse_elems xs hxs f rest (by simp at hf ⊢; omega)]
      rfl
  | .obj .nil => fun _ f rest _ hf => by
    rw [dumps_obj_nil] at hf ⊢
    cases f with
    | zero => omega
    | succ f =>
      have hin : ([123, 125] : List Nat) ++ rest = 123 :: 125 :: rest := rfl
      rw [hin]
      exact parseF_val_obj_nil f (125 :: rest) rest (skipWs_cons_notWs 125 rfl rest)
  | .obj (.cons k v kvs) => fun hw f rest hstop hf => by
    have hwk : wfStr k = true := by
      cases hw with | obj _ h _ => cases h with | cons hk _ _ => exact hk
    have hv : Wf v := by
      cases hw with | obj _ h _ => cases h with | cons _ hv _ => exact hv
    have hkvs : WfObj kvs := by
      cases hw with | obj _ h _ => cases h with | cons _ _ hkvs => exact hkvs
    rw [dumps_obj_cons] at hf ⊢
    cases f with
    | zero => omega
    | succ f =>
      have hin : (123 :: (quoteStr k ++ [58, 32] ++ dumps v ++ dumpsObj kvs ++ [125])) ++ rest
          = 123 :: (34 :: ((k.map escapeChar).flatten
              ++ 34 :: (58 :: 32 :: (dumps v ++ (dumpsObj kvs ++ 125 :: rest))))) := by
        simp [quoteStr]
      rw [hin]
      rw [parseF_val_obj_cons f _
        ((k.map escapeChar).flatten ++ 34 :: (58 :: 32 :: (dumps v ++ (dumpsObj kvs ++ 125 :: rest))))
        (58 :: 32 :: (dumps v ++ (dumpsObj kvs ++ 125 :: rest)))
        (32 :: (dumps v ++ (dumpsObj kvs ++ 125 :: rest))) k
        (skipWs_cons_notWs 34 rfl _)
        (parseStr_quoteBody k hwk _)
        (skipWs_cons_notWs 58 rfl _)]
      rw [skipWs_space, skipWs_dumps v _]
      rw [parse_dumps v hv f (dumpsObj kvs ++ 125 :: rest) (numStop_dumpsObj kvs rest)
        (by simp at hf ⊢; omega)]
      show objConsRes k v (parseF f .members (skipWs (dumpsObj kvs ++ 125 :: rest))) = _
      rw [skipWs_objTail kvs rest,
        parse_members kvs hkvs f rest (by simp at hf ⊢; omega)]
      rfl
  termination_by structural v

theorem parse_elems (xs : JArr) : WfArr xs → ∀ (f : Nat) (rest : List Nat),
    (dumpsArr xs ++ 93 :: rest).length < f →
    parseF f .elems (dumpsArr xs ++ 93 :: rest) = some (.arr xs, rest) :=
  match xs with
  | .nil => fun _ f rest hf => by
    rw [dumpsArr_nil] at hf ⊢
    cases f with
    | zero => omega
    | succ f =>
      rw [List.nil_append]
      exact parseF_elems_nil f rest
  | .cons x xs => fun hwa f rest hf => by
    have hx : Wf x := by cases hwa with | cons hx _ => exact hx
    have hxs : WfArr xs := by cases hwa with | cons _ hxs => exact hxs
    rw [dumpsArr_cons] at hf ⊢
    cases f with
    | zero => omega
    | succ f =>
      have hin : (44 :: 32 :: (dumps x ++ dumpsArr xs)) ++ 93 :: rest
          = 44 :: (32 :: (dumps x ++ (dumpsArr xs ++ 93 :: rest))) := by
        simp
      rw [hin, parseF_elems_cons f _, skipWs_space, skipWs_dumps x _]
      rw [parse_dumps x hx f (dumpsArr xs ++ 93 :: rest) (numStop_dumpsArr xs rest)
        (by simp at hf ⊢; omega)]
      show arrConsRes x (parseF f .elems (skipWs (dumpsArr xs ++ 93 :: rest))) = _
      rw [skipWs_arrTail xs rest,
        parse_elems xs hxs f rest (by simp at hf ⊢; omega)]
      rfl
  termination_by structural xs

theorem parse_members (kvs : JObj) : WfObj kvs → ∀ (f : Nat) (rest : List Nat),
    (dumpsObj kvs ++ 125 :: rest).length < f →
    parseF f .members (dumpsObj kvs ++ 125 :: rest) = some (.obj kvs, rest) :=
  match kvs with
  | .nil => fun _ f rest hf => by
    rw [dumpsObj_nil] at hf ⊢
    cases f with
    | zero => omega
    | succ f =>
      rw [List.nil_append]
      exact parseF_members_nil f rest
  | .cons k v kvs => fun hwo f rest hf => by
    have hwk : wfStr k = true := by cases hwo with | cons hk _ _ => exact hk
    have hv : Wf v := by cases hwo with | cons _ hv _ => exact hv
    have hkvs : WfObj kvs := by cases hwo with | cons _ _ hkvs => exact hkvs
    rw [dumpsObj_cons] at hf ⊢
    cases f with
    | zero => omega
    | succ f =>
      have hin : (44 :: 32 :: (quoteStr k ++ [58, 32] ++ dumps v ++ dumpsObj kvs)) ++ 125 :: rest
          = 44 :: (32 :: (34 :: ((k.map escapeChar).flatten
              ++ 34 :: (58 :: 32 :: (dumps v ++ (dumpsObj kvs ++ 125 :: rest)))))) := by
        simp [quoteStr]
      rw [hin]
      rw [parseF_members_cons f _
        ((k.map escapeChar).flatten ++ 34 :: (58 :: 32 :: (dumps v ++ (dumpsObj kvs ++ 125 :: rest))))
        (58 :: 32 :: (dumps v ++ (dumpsObj kvs ++ 125 :: rest)))
        (32 :: (dumps v ++ (dumpsObj kvs ++ 125 :: rest))) k
        (by rw [skipWs_space]; exact skipWs_cons_notWs 34 rfl _)
        (parseStr_quoteBody k hwk _)
        (skipWs_cons_notWs 58 rfl _)]
      rw [skipWs_space, skipWs_dumps v _]
      rw [parse_dumps v hv f (dumpsObj kvs ++ 125 :: rest) (numStop_dumpsObj kvs rest)
        (by simp at hf ⊢; omega)]
      show objConsRes k v (parseF f .members (skipWs (dumpsObj kvs ++ 125 :: rest))) = _
      rw [skipWs_objTail kvs rest,
        parse_members kvs hkvs f rest (by simp at hf ⊢; omega)]
      rfl
  termination_by structural kvs
end

/-- `json.loads` inverts `json.dumps` on every well-formed value. -/
theorem loads_dumps (v : Json) (hw : Wf v) : loads (dumps v) = some v := by
  have h1 : skipWs (dumps v) = dumps v := by
    have h := skipWs_dumps v []
    simpa using h
  have h2 : parseF ((dumps v).length + 1) .val (dumps v) = some (v, []) := by
    have h := parse_dumps v hw ((dumps v).length + 1) [] rfl (by simp)
    simpa using h
  rw [loads, h1, h2]
  rfl

end json


namespace json

theorem utf8Encode_dumps (v : Json) : utf8Encode (dumps v) = dumps v :=
  utf8Encode_ascii _ (fun c hc => dumps_ascii v c hc)

theorem utf8Decode_dumps (v : Json) : utf8Decode (dumps v) = some (dumps v) :=
  utf8Decode_ascii _ (fun c hc => dumps_ascii v c hc)

theorem dumps_length_pos (v : Json) : 0 < (dumps v).length := by
  obtain ⟨c, t, ht, _, _, _⟩ := dumps_head v
  simp [ht]

end json

/-! ## Frame-level lemmas -/

theorem packLE4_length (n : Nat) : (packLE4 n).length = 4 := rfl

theorem unpackLE4_packLE4 (n : Nat) (h : n < 4294967296) :
    unpackLE4 (n % 256) (n / 256 % 256) (n / 65536 % 256) (n / 16777216 % 256) = n := by
  simp only [unpackLE4]
  omega

namespace CtShm

/-- What a successful ctypes-variant `write` did: the length and capacity
checks passed and the buffer is the frame followed by zeros. -/
theorem write_spec (size : Nat) (v : Json) (buf : List Nat) (h : write size v = some buf) :
    4 ≤ size ∧ (json.dumps v).length < 4294967296 ∧ 4 + (json.dumps v).length ≤ size ∧
      buf = packLE4 (json.dumps v).length ++ json.dumps v
          ++ List.replicate (size - (4 + (json.dumps v).length)) 0 := by
  simp only [write, json.utf8Encode_dumps] at h
  by_cases hc : 4 ≤ size ∧ (json.dumps v).length < 4294967296 ∧ 4 + (json.dumps v).length ≤ size
  · rw [if_pos hc] at h
    exact ⟨hc.1, hc.2.1, hc.2.2, (Option.some.injEq _ _ ▸ h).symm⟩
  · rw [if_neg hc] at h
    exact absurd h (by simp)

/-- Reading back a frame the ctypes variant wrote yields the original value:
the length prefix decodes to the payload length, the validation passes, and
the payload round-trips through UTF-8 and `json.loads`. -/
theorem write_read (size : Nat) (v : Json) (buf : List Nat) (hw : json.Wf v)
    (h : write size v = some buf) : read buf = (some v, none) := by
  obtain ⟨h4, hlt, hle, hbuf⟩ := write_spec size v buf h
  have hpos := json.dumps_length_pos v
  have hread : readBody buf = .ok (some v) := by
    rw [hbuf]
    show readBody (((json.dumps v).length % 256) :: ((json.dumps v).length / 256 % 256)
        :: ((json.dumps v).length / 65536 % 256) :: ((json.dumps v).length / 16777216 % 256)
        :: (json.dumps v ++ List.replicate (size - (4 + (json.dumps v).length)) 0)) = _
    simp only [readBody]
    rw [unpackLE4_packLE4 (json.dumps v).length hlt]
    have hrl : (json.dumps v ++ List.replicate (size - (4 + (json.dumps v).length)) 0).length
        = (json.dumps v).length + (size - (4 + (json.dumps v).length)) := by
      simp
    rw [if_neg (by omega)]
    rw [List.take_left, json.utf8Decode_dumps v]
    simp only [json.loads_dumps v hw]
  rw [read, hread]

end CtShm



namespace PyShm

/-- `Except.bind` on a success applies the continuation. -/
theorem except_bind_ok {e a b : Type} (x : a) (f : a → Except e b) :
    Except.bind (Except.ok x) f = f x := rfl

/-- `Except.bind` on a failure propagates the failure. -/
theorem except_bind_err {e a b : Type} (x : e) (f : a → Except e b) :
    Except.bind (Except.error x) f = Except.error x := rfl

/-- Taking the first 4 bytes of a frame recovers the packed length field. -/
theorem frame_take4 (L : Nat) (rest : List Nat) :
    (packLE4 L ++ rest).take 4 = packLE4 L := by
  have h2 : (packLE4 L ++ rest).take 4 = (packLE4 L ++ rest).take (packLE4 L).length := by
    rw [packLE4_length]
  rw [h2]
  exact List.take_left _ _

/-- Dropping the first 4 bytes of a frame leaves the payload part. -/
theorem frame_drop4 (L : Nat) (rest : List Nat) :
    (packLE4 L ++ rest).drop 4 = rest := by
  have h2 : (packLE4 L ++ rest).drop 4 = (packLE4 L ++ rest).drop (packLE4 L).length := by
    rw [packLE4_length]
  rw [h2]
  exact List.drop_left _ _

/-- Dropping past a frame whose tail is `buf0.drop 4` reaches the same
bytes as dropping directly from `buf0`. -/
theorem frame_drop_frame (L : Nat) (buf0 : List Nat) :
    (packLE4 L ++ buf0.drop 4).drop (4 + L) = buf0.drop (4 + L) := by
  have h1 : (4 : Nat) + L = (packLE4 L).length + L := by rw [packLE4_length]
  rw [h1, List.drop_append, List.drop_drop]
  rw [packLE4_length, Nat.add_comm]

/-- `struct.pack("i", L)` on an in-range nonnegative length is the
little-endian 4-byte encoding. -/
theorem pack_i_ok (L : Nat) (h : L < 2147483648) :
    pack_i (L : Int) = Except.ok (packLE4 L) := by
  have h1 : ((L : Int) % 4294967296).toNat = L := by omega
  rw [pack_i, if_pos (by omega : -2147483648 ≤ (L : Int) ∧ (L : Int) < 2147483648), h1]

/-- A segment write at offset 0 that fits replaces the front of the buffer. -/
theorem svWrite_ok0 (buf data : List Nat) (h : data.length ≤ buf.length) :
    svWrite buf data 0 = Except.ok (data ++ buf.drop data.length) := by
  rw [svWrite, if_pos (by omega : 0 + data.length ≤ buf.length)]
  simp

/-- When the length is in `struct.pack("i", ...)` range and the frame fits,
the sysv_ipc-variant `write` replaces the front of the segment with the
frame and keeps the stale tail (no zero-filling). -/
theorem write_eq (buf0 : List Nat) (v : Json)
    (h31 : (json.dumps v).length < 2147483648)
    (hfit : 4 + (json.dumps v).length ≤ buf0.length) :
    write buf0 v = Except.ok (packLE4 (json.dumps v).length ++ json.dumps v
        ++ buf0.drop (4 + (json.dumps v).length)) := by
  have hw0 : write buf0 v = (pack_i (json.utf8Encode (json.dumps v)).length).bind fun lb =>
      (svWrite buf0 lb 0).bind fun buf1 => svWrite buf1 (json.utf8Encode (json.dumps v)) 4 := rfl
  rw [hw0, json.utf8Encode_dumps, pack_i_ok _ h31, except_bind_ok,
    svWrite_ok0 _ _ (by rw [packLE4_length]; omega), except_bind_ok, packLE4_length]
  rw [svWrite, if_pos (by rw [List.length_append, packLE4_length, List.length_drop]; omega)]
  rw [frame_take4, frame_drop_frame]

/-- A payload longer than `struct.pack("i", ...)` allows raises the pack
error before anything is written. -/
theorem write_err_pack (buf0 : List Nat) (v : Json)
    (h31 : ¬ (json.dumps v).length < 2147483648) :
    write buf0 v = Except.error PyErr.packErr := by
  have hw0 : write buf0 v = (pack_i (json.utf8Encode (json.dumps v)).length).bind fun lb =>
      (svWrite buf0 lb 0).bind fun buf1 => svWrite buf1 (json.utf8Encode (json.dumps v)) 4 := rfl
  rw [hw0, json.utf8Encode_dumps, pack_i, if_neg (by omega), except_bind_err]

/-- A frame that does not fit in the segment makes one of the two segment
writes raise. -/
theorem write_err_fit (buf0 : List Nat) (v : Json)
    (h31 : (json.dumps v).length < 2147483648)
    (hfit : ¬ 4 + (json.dumps v).length ≤ buf0.length) :
    write buf0 v = Except.error PyErr.writeOob := by
  have hw0 : write buf0 v = (pack_i (json.utf8Encode (json.dumps v)).length).bind fun lb =>
      (svWrite buf0 lb 0).bind fun buf1 => svWrite buf1 (json.utf8Encode (json.dumps v)) 4 := rfl
  rw [hw0, json.utf8Encode_dumps, pack_i_ok _ h31, except_bind_ok]
  by_cases h4 : 4 ≤ buf0.length
  · rw [svWrite_ok0 _ _ (by rw [packLE4_length]; omega), except_bind_ok, packLE4_length]
    rw [svWrite, if_neg (by rw [List.length_append, packLE4_length, List.length_drop]; omega)]
  · rw [svWrite, if_neg (by rw [packLE4_length]; omega), except_bind_err]

/-- What a successful sysv_ipc-variant `write` did: the signed pack and the
two segment writes succeeded, and the new segment content is the frame
followed by the tail of the old content (no zero-filling). -/
theorem sv_write_spec (buf0 : List Nat) (v : Json) (buf : List Nat)
    (h : write buf0 v = Except.ok buf) :
    (json.dumps v).length < 2147483648 ∧ 4 + (json.dumps v).length ≤ buf0.length ∧
      buf = packLE4 (json.dumps v).length ++ json.dumps v
          ++ buf0.drop (4 + (json.dumps v).length) := by
  by_cases h31 : (json.dumps v).length < 2147483648
  · by_cases hfit : 4 + (json.dumps v).length ≤ buf0.length
    · refine ⟨h31, hfit, ?_⟩
      rw [write_eq buf0 v h31 hfit] at h
      exact (Except.ok.inj h).symm
    · rw [write_err_fit buf0 v h31 hfit] at h
      exact Except.noConfusion h
  · rw [write_err_pack buf0 v h31] at h
    exact Except.noConfusion h

/-- The signed unpack of a packed in-range length recovers the length. -/
theorem unpack_i_packLE4 (L : Nat) (h : L < 2147483648) :
    unpack_i (packLE4 L) = (L : Int) := by
  have h0 : unpack_i (packLE4 L) =
      if unpackLE4 (L % 256) (L / 256 % 256) (L / 65536 % 256) (L / 16777216 % 256) < 2147483648
      then ((unpackLE4 (L % 256) (L / 256 % 256) (L / 65536 % 256) (L / 16777216 % 256) : Nat) : Int)
      else ((unpackLE4 (L % 256) (L / 256 % 256) (L / 65536 % 256) (L / 16777216 % 256) : Nat) : Int)
        - 4294967296 := rfl
  rw [h0]
  simp only [unpackLE4_packLE4 L (by omega)]
  rw [if_pos h]

/-- Reading back a frame the sysv_ipc variant wrote yields the original
value: the four length bytes unpack to the payload length and the payload
round-trips through UTF-8 and `json.loads`. -/
theorem sv_write_read (buf0 : List Nat) (v : Json) (buf : List Nat) (hw : json.Wf v)
    (h : write buf0 v = Except.ok buf) : read buf = Except.ok v := by
  obtain ⟨h31, hfit, hbuf⟩ := sv_write_spec buf0 v buf h
  have hpos := json.dumps_length_pos v
  have hblen : buf.length = 4 + ((json.dumps v).length
      + (buf0.length - (4 + (json.dumps v).length))) := by
    rw [hbuf, List.length_append, List.length_append, packLE4_length, List.length_drop]
    omega
  have hr1 : svRead buf 4 0 = Except.ok (packLE4 (json.dumps v).length) := by
    rw [svRead, if_neg (by omega), if_neg (by norm_num), if_neg (by omega)]
    have ht4 : ((4 : Int)).toNat = 4 := rfl
    rw [ht4, List.drop_zero, hbuf, List.append_assoc, frame_take4]
  have hr2 : svRead buf ((json.dumps v).length : Int) 4 = Except.ok (json.dumps v) := by
    rw [svRead, if_neg (by omega), if_neg (by omega), if_neg (by omega)]
    have htn : (((json.dumps v).length : Int)).toNat = (json.dumps v).length := by omega
    rw [htn, hbuf, List.append_assoc, frame_drop4, List.take_left]
  have hr0 : read buf = (svRead buf 4 0).bind fun length_bytes =>
      (svRead buf (unpack_i length_bytes) 4).bind fun data_bytes =>
        match json.utf8Decode data_bytes with
        | none => Except.error PyErr.utf8Err
        | some json_str =>
          match json.loads json_str with
          | none => Except.error PyErr.parseErr
          | some w => Except.ok w := rfl
  rw [hr0, hr1]
  simp only [except_bind_ok]
  rw [unpack_i_packLE4 _ h31, hr2]
  simp only [except_bind_ok]
  rw [json.utf8Decode_dumps v]
  simp only [json.loads_dumps v hw]

end PyShm

/-! ## The claims -/

/-- Unfolding `CtShm.readBody` on a buffer of at least 4 bytes. -/
theorem ctshm_readBody_cons (b0 b1 b2 b3 : Nat) (rest : List Nat) :
    CtShm.readBody (b0 :: b1 :: b2 :: b3 :: rest) =
      if unpackLE4 b0 b1 b2 b3 = 0 ∨ rest.length < unpackLE4 b0 b1 b2 b3 then Except.ok none
      else
        match json.utf8Decode (rest.take (unpackLE4 b0 b1 b2 b3)) with
        | none => Except.error CtShm.ReadErr.utf8Err
        | some data_str =>
          match json.loads data_str with
          | none => Except.error CtShm.ReadErr.parseErr
          | some v => Except.ok (some v) := rfl

/-- A successful body gives the silent return of the value. -/
theorem ctshm_read_ok (buf : List Nat) (r : Option Json)
    (h : CtShm.readBody buf = Except.ok r) : CtShm.read buf = (r, none) := by
  rw [CtShm.read, h]

/-- A caught exception gives `None` to the caller and a printed error. -/
theorem ctshm_read_err (buf : List Nat) (e : CtShm.ReadErr)
    (h : CtShm.readBody buf = Except.error e) : CtShm.read buf = (none, some e) := by
  rw [CtShm.read, h]

/-- C10: totality of the ctypes-variant read: on every buffer content,
`SharedMemory.read` returns — a parsed payload `(some v, none)`, the silent
no-data outcome `(none, none)`, or `None` with a printed (never raised)
error `(none, some e)`; in every failure case the caller receives `None`. -/
theorem c10_read_total (buf : List Nat) :
    (∃ v, CtShm.read buf = (some v, none)) ∨ CtShm.read buf = (none, none)
      ∨ ∃ e, CtShm.read buf = (none, some e) := by
  cases hb : CtShm.readBody buf with
  | ok r =>
    cases r with
    | none => exact Or.inr (Or.inl (ctshm_read_ok buf none hb))
    | some v => exact Or.inl ⟨v, ctshm_read_ok buf (some v) hb⟩
  | error e => exact Or.inr (Or.inr ⟨e, ctshm_read_err buf e hb⟩)

/-- C7 (amended): the ctypes-variant `cleanup` is idempotent: after one
`cleanup`, the handle is reset, so a second `cleanup` issues no libc call
and prints nothing, whatever the outcomes of the first one were. -/
theorem c7_cleanup_idempotent (h : CtShm.Handle) (b1 b2 b3 b4 : Bool) :
    CtShm.cleanup (CtShm.cleanup h b1 b2).1 b3 b4 = ((CtShm.cleanup h b1 b2).1, [], []) := by
  cases h with
  | mk m i => cases m <;> rfl

/-- C7 counterexample: the sysv_ipc-variant `cleanup` never resets
`self.memory`, so a second `cleanup` on the same handle issues `shmdt` and
the removal attempt again — it is not a no-op. -/
theorem c7_counterexample :
    PyShm.cleanup (PyShm.cleanup ⟨some 1⟩ true).1 true
      = (⟨some 1⟩, [CtShm.OsCall.shmdt, CtShm.OsCall.shmctlRmid], true)
    ∧ (PyShm.cleanup (PyShm.cleanup ⟨some 1⟩ true).1 true).2.1 ≠ [] :=
  ⟨rfl, List.cons_ne_nil _ _⟩

/-- C8: best-effort removal: whether the kernel-level removal succeeds or
fails changes neither the handle the caller is left with nor the calls
issued, in both variants — the failure is at most logged, never raised. -/
theorem c8_best_effort_removal (h : CtShm.Handle) (b : Bool) (hp : PyShm.Handle) :
    ((CtShm.cleanup h b true).1 = (CtShm.cleanup h b false).1
      ∧ (CtShm.cleanup h b true).2.1 = (CtShm.cleanup h b false).2.1)
    ∧ ((PyShm.cleanup hp true).1 = (PyShm.cleanup hp false).1
      ∧ (PyShm.cleanup hp true).2.1 = (PyShm.cleanup hp false).2.1) := by
  cases h with
  | mk m i =>
  cases hp with
  | mk mp => cases m <;> cases mp <;> exact ⟨⟨rfl, rfl⟩, rfl, rfl⟩

/-- C2 (amended): in the ctypes variant a zero or oversized length prefix
is the silent no-data outcome: the caller gets `None` and nothing is
printed. -/
theorem c2_bounds_nodata (b0 b1 b2 b3 : Nat) (rest : List Nat)
    (h : unpackLE4 b0 b1 b2 b3 = 0 ∨ rest.length < unpackLE4 b0 b1 b2 b3) :
    CtShm.read (b0 :: b1 :: b2 :: b3 :: rest) = (none, none) := by
  have hb : CtShm.readBody (b0 :: b1 :: b2 :: b3 :: rest) = Except.ok none := by
    rw [ctshm_readBody_cons, if_pos h]
  exact ctshm_read_ok _ none hb

/-- C2 witness: reading an all-zero 8-byte segment is the silent no-data
outcome. -/
theorem c2_bounds_nodata_witness :
    CtShm.read (0 :: 0 :: 0 :: 0 :: List.replicate 4 0) = (none, none) :=
  c2_bounds_nodata 0 0 0 0 (List.replicate 4 0) (Or.inl (by decide))

/-- C2 counterexample: the sysv_ipc variant does not validate the length
prefix: on an all-zero segment the zero length is passed through and the
`json.loads` of an empty slice raises (`.error`, not a `None` return), and
a negative length makes the segment read itself raise. -/
theorem c2_counterexample :
    PyShm.read (List.replicate 8 0) = Except.error PyShm.PyErr.parseErr
    ∧ PyShm.read [255, 255, 255, 255, 0, 0, 0, 0] = Except.error PyShm.PyErr.readOob :=
  ⟨rfl, rfl⟩

/-- C3: a buffer whose length prefix is in range but whose payload fails
UTF-8 decoding or JSON parsing yields a printed decode error with a `None`
return — an outcome distinct from the silent no-data `(none, none)`. -/
theorem c3_decode_error_distinct (b0 b1 b2 b3 : Nat) (rest : List Nat)
    (hL : ¬(unpackLE4 b0 b1 b2 b3 = 0 ∨ rest.length < unpackLE4 b0 b1 b2 b3))
    (hbad : json.utf8Decode (rest.take (unpackLE4 b0 b1 b2 b3)) = none
      ∨ ∃ s, json.utf8Decode (rest.take (unpackLE4 b0 b1 b2 b3)) = some s
          ∧ json.loads s = none) :
    ∃ e, CtShm.read (b0 :: b1 :: b2 :: b3 :: rest) = (none, some e)
      ∧ ((none, some e) : Option Json × Option CtShm.ReadErr) ≠ (none, none) := by
  rcases hbad with hu | ⟨s, hs, hl⟩
  · refine ⟨CtShm.ReadErr.utf8Err, ?_, by simp⟩
    have hb : CtShm.readBody (b0 :: b1 :: b2 :: b3 :: rest)
        = Except.error CtShm.ReadErr.utf8Err := by
      rw [ctshm_readBody_cons, if_neg hL]
      simp only [hu]
    exact ctshm_read_err _ _ hb
  · refine ⟨CtShm.ReadErr.parseErr, ?_, by simp⟩
    have hb : CtShm.readBody (b0 :: b1 :: b2 :: b3 :: rest)
        = Except.error CtShm.ReadErr.parseErr := by
      rw [ctshm_readBody_cons, if_neg hL]
      simp only [hs, hl]
    exact ctshm_read_err _ _ hb

/-- C3 witness: length prefix 1 with payload byte 255 (not valid UTF-8)
gives the printed decode error, not the silent no-data outcome. -/
theorem c3_decode_error_distinct_witness :
    ∃ e, CtShm.read [1, 0, 0, 0, 255] = (none, some e)
      ∧ ((none, some e) : Option Json × Option CtShm.ReadErr) ≠ (none, none) :=
  c3_decode_error_distinct 1 0 0 0 [255] (by decide) (Or.inl (by decide))

/-- C1: Frame Codec round-trip: after a successful `write` of a
well-formed value on either variant, `read` returns the value again. -/
theorem c1_roundtrip (size : Nat) (v : Json) (bufC buf0 bufP : List Nat)
    (hw : json.Wf v)
    (hc : CtShm.write size v = some bufC) (hp : PyShm.write buf0 v = Except.ok bufP) :
    CtShm.read bufC = (some v, none) ∧ PyShm.read bufP = Except.ok v :=
  ⟨CtShm.write_read size v bufC hw hc, PyShm.sv_write_read buf0 v bufP hw hp⟩

/-- C1 witness: the object with a single key `data` mapped to 21, written
to a 32-byte segment by either variant, reads back unchanged. -/
theorem c1_roundtrip_witness :
    CtShm.read ([12, 0, 0, 0, 123, 34, 100, 97, 116, 97, 34, 58, 32, 50, 49, 125]
        ++ List.replicate 16 0)
      = (some (Json.obj (.cons [100, 97, 116, 97] (Json.num 21) .nil)), none)
    ∧ PyShm.read ([12, 0, 0, 0, 123, 34, 100, 97, 116, 97, 34, 58, 32, 50, 49, 125]
        ++ List.replicate 16 0)
      = Except.ok (Json.obj (.cons [100, 97, 116, 97] (Json.num 21) .nil)) :=
  c1_roundtrip 32
    (Json.obj (.cons [100, 97, 116, 97] (Json.num 21) .nil))
    ([12, 0, 0, 0, 123, 34, 100, 97, 116, 97, 34, 58, 32, 50, 49, 125]
      ++ List.replicate 16 0)
    (List.replicate 32 0)
    ([12, 0, 0, 0, 123, 34, 100, 97, 116, 97, 34, 58, 32, 50, 49, 125]
      ++ List.replicate 16 0)
    (json.Wf.obj _ (json.WfObj.cons (by decide) (json.Wf.num 21) json.WfObj.nil) (by decide))
    (by rfl) (by rfl)

/-- C4 (amended): after a successful write, the ctypes variant leaves only
zero bytes past the end of the new frame (it zero-fills the whole segment
first), while the sysv_ipc variant leaves the previous segment content
past the end of the new frame untouched. -/
theorem c4_zero_fill_frame (size : Nat) (v : Json) (bufC buf0 bufP : List Nat)
    (hc : CtShm.write size v = some bufC) (hp : PyShm.write buf0 v = Except.ok bufP) :
    bufC.drop (4 + (json.utf8Encode (json.dumps v)).length)
      = List.replicate (size - (4 + (json.utf8Encode (json.dumps v)).length)) 0
    ∧ bufP.drop (4 + (json.utf8Encode (json.dumps v)).length)
      = buf0.drop (4 + (json.utf8Encode (json.dumps v)).length) := by
  obtain ⟨h4, hlt, hle, hbc⟩ := CtShm.write_spec size v bufC hc
  obtain ⟨h31, hfit, hbp⟩ := PyShm.sv_write_spec buf0 v bufP hp
  rw [json.utf8Encode_dumps]
  have h1 : 4 + (json.dumps v).length
      = (packLE4 (json.dumps v).length ++ json.dumps v).length := by
    rw [List.length_append, packLE4_length]
  constructor
  · rw [hbc, h1, List.drop_left]
  · rw [hbp, h1, List.drop_left]

/-- C4 witness: writing `null` into a 16-byte segment previously full of
byte 55: the ctypes variant leaves zeros after the 8-byte frame, the
sysv_ipc variant leaves the old bytes 55. -/
theorem c4_zero_fill_frame_witness :
    ([4, 0, 0, 0, 110, 117, 108, 108] ++ List.replicate 8 0).drop
        (4 + (json.utf8Encode (json.dumps Json.null)).length)
      = List.replicate (16 - (4 + (json.utf8Encode (json.dumps Json.null)).length)) 0
    ∧ ([4, 0, 0, 0, 110, 117, 108, 108] ++ List.replicate 8 55).drop
        (4 + (json.utf8Encode (json.dumps Json.null)).length)
      = (List.replicate 16 55).drop
          (4 + (json.utf8Encode (json.dumps Json.null)).length) :=
  c4_zero_fill_frame 16 Json.null
    ([4, 0, 0, 0, 110, 117, 108, 108] ++ List.replicate 8 0)
    (List.replicate 16 55)
    ([4, 0, 0, 0, 110, 117, 108, 108] ++ List.replicate 8 55)
    (by rfl) (by rfl)

/-- C4 counterexample: the sysv_ipc variant does not zero-fill: writing
`null` (an 8-byte frame) into a 16-byte segment previously full of byte 55
leaves byte 55 at offset 8, directly past the end of the new frame. -/
theorem c4_counterexample :
    PyShm.write (List.replicate 16 55) Json.null
      = Except.ok ([4, 0, 0, 0, 110, 117, 108, 108] ++ List.replicate 8 55)
    ∧ ([4, 0, 0, 0, 110, 117, 108, 108] ++ List.replicate 8 55).getD 8 0 ≠ 0 :=
  ⟨rfl, by decide⟩

/-- C5: a successful write of either variant produces a frame whose first
4 bytes are the little-endian 4-byte encoding of the UTF-8 payload length,
followed at offset 4 by exactly that many bytes of UTF-8 payload. -/
theorem c5_length_prefix (size : Nat) (v : Json) (bufC buf0 bufP : List Nat)
    (hc : CtShm.write size v = some bufC) (hp : PyShm.write buf0 v = Except.ok bufP) :
    (bufC.take 4 = packLE4 (json.utf8Encode (json.dumps v)).length
      ∧ (bufC.drop 4).take (json.utf8Encode (json.dumps v)).length
          = json.utf8Encode (json.dumps v))
    ∧ (bufP.take 4 = packLE4 (json.utf8Encode (json.dumps v)).length
      ∧ (bufP.drop 4).take (json.utf8Encode (json.dumps v)).length
          = json.utf8Encode (json.dumps v)) := by
  obtain ⟨h4, hlt, hle, hbc⟩ := CtShm.write_spec size v bufC hc
  obtain ⟨h31, hfit, hbp⟩ := PyShm.sv_write_spec buf0 v bufP hp
  rw [json.utf8Encode_dumps]
  refine ⟨⟨?_, ?_⟩, ?_, ?_⟩
  · rw [hbc, List.append_assoc, PyShm.frame_take4]
  · rw [hbc, List.append_assoc, PyShm.frame_drop4, List.take_left]
  · rw [hbp, List.append_assoc, PyShm.frame_take4]
  · rw [hbp, List.append_assoc, PyShm.frame_drop4, List.take_left]

/-- C5 witness: writing `null` (4 payload bytes) to a 16-byte segment in
either variant yields the prefix `[4, 0, 0, 0]` followed by the payload. -/
theorem c5_length_prefix_witness :
    (([4, 0, 0, 0, 110, 117, 108, 108] ++ List.replicate 8 0).take 4
        = packLE4 (json.utf8Encode (json.dumps Json.null)).length
      ∧ (([4, 0, 0, 0, 110, 117, 108, 108] ++ List.replicate 8 0).drop 4).take
            (json.utf8Encode (json.dumps Json.null)).length
          = json.utf8Encode (json.dumps Json.null))
    ∧ (([4, 0, 0, 0, 110, 117, 108, 108] ++ List.replicate 8 0).take 4
        = packLE4 (json.utf8Encode (json.dumps Json.null)).length
      ∧ (([4, 0, 0, 0, 110, 117, 108, 108] ++ List.replicate 8 0).drop 4).take
            (json.utf8Encode (json.dumps Json.null)).length
          = json.utf8Encode (json.dumps Json.null)) :=
  c5_length_prefix 16 Json.null
    ([4, 0, 0, 0, 110, 117, 108, 108] ++ List.replicate 8 0)
    (List.replicate 16 0)
    ([4, 0, 0, 0, 110, 117, 108, 108] ++ List.replicate 8 0)
    (by rfl) (by rfl)

/-- C6 (amended): create-or-attach: when a segment with the key exists and
the requested size is at most the existing size, both variants attach to
the existing segment; when no segment exists, both create one. -/
theorem c6_create_or_attach (k : Kernel) (key size : Nat) :
    (∀ id sz, k.findKey key = some (id, sz) → size ≤ sz →
      CtShm.init k key size = (k, Except.ok id)
        ∧ PyShm.init k key size = (k, Except.ok id))
    ∧ (k.findKey key = none →
      CtShm.init k key size
          = (⟨(k.nextId, key, size) :: k.segs, k.nextId + 1⟩, Except.ok k.nextId)
        ∧ PyShm.init k key size
          = (⟨(k.nextId, key, size) :: k.segs, k.nextId + 1⟩, Except.ok k.nextId)) := by
  constructor
  · intro id sz hfind hsz
    have hg : shmget k key size 950 = (k, Except.ok id) := by
      simp only [shmget, hfind]
      rw [if_neg (by decide), if_neg (by omega)]
    constructor
    · simp only [CtShm.init]
      exact hg
    · simp only [PyShm.init]
      rw [hg]
  · intro hnone
    have hg : shmget k key size 950
        = (⟨(k.nextId, key, size) :: k.segs, k.nextId + 1⟩, Except.ok k.nextId) := by
      simp only [shmget, hnone]
      rw [if_pos (by decide)]
    constructor
    · simp only [CtShm.init]
      exact hg
    · simp only [PyShm.init]
      rw [hg]

/-- C6 witness: with a segment of size 8 under key 5678 already present,
acquiring key 5678 with requested size 8 attaches in both variants. -/
theorem c6_create_or_attach_witness :
    CtShm.init ⟨[(1, 5678, 8)], 2⟩ 5678 8 = (⟨[(1, 5678, 8)], 2⟩, Except.ok 1)
    ∧ PyShm.init ⟨[(1, 5678, 8)], 2⟩ 5678 8 = (⟨[(1, 5678, 8)], 2⟩, Except.ok 1) :=
  (c6_create_or_attach ⟨[(1, 5678, 8)], 2⟩ 5678 8).1 1 8 (by rfl) (by decide)

/-- C6 counterexample: with a segment of size 8 under key 5678 already
present, acquiring key 5678 with the larger requested size 16 does not
attach: `shmget` fails with `EINVAL` in both variants (the attach-only
fallback of the sysv_ipc variant only catches `EEXIST`). -/
theorem c6_counterexample :
    (CtShm.init ⟨[(1, 5678, 8)], 2⟩ 5678 16).2 = Except.error Errno.EINVAL
    ∧ (PyShm.init ⟨[(1, 5678, 8)], 2⟩ 5678 16).2 = Except.error Errno.EINVAL :=
  ⟨rfl, rfl⟩

/-- C9 (amended): per-exchange behaviour of the socket server: a request
that processes successfully is answered with the success response and the
loop continues with the remaining requests; a request whose processing
raises is answered with the error response and the handler then breaks out
of the receive loop, ending the connection. -/
theorem c9_server_responses (chunk : List Nat) (rest : List (List Nat)) (hne : chunk ≠ []) :
    (∀ d, IPCServer.handleChunk chunk = Except.ok d →
      IPCServer.run (chunk :: rest) = IPCServer.successResp d :: IPCServer.run rest)
    ∧ (∀ e, IPCServer.handleChunk chunk = Except.error e →
      IPCServer.run (chunk :: rest) = [IPCServer.errorResp e]) := by
  constructor
  · intro d hd
    simp only [IPCServer.run]
    rw [if_neg hne, hd]
  · intro e he
    simp only [IPCServer.run]
    rw [if_neg hne, he]

/-- C9 witness: a request with numeric data field 5 is answered with the
success response carrying 10 and the loop continues on the rest. -/
theorem c9_server_responses_witness :
    IPCServer.run ([123, 34, 100, 97, 116, 97, 34, 58, 32, 53, 125] :: [[123, 125]])
      = IPCServer.successResp (Json.num 10) :: IPCServer.run [[123, 125]] :=
  (c9_server_responses [123, 34, 100, 97, 116, 97, 34, 58, 32, 53, 125] [[123, 125]]
    (by decide)).1 (Json.num 10) (by rfl)

/-- C9 counterexample: after an error response the server does not continue
reading: a request missing the `data` field followed by a well-formed
request yields only the one error response — the second request, which on
its own would be answered, is never processed. -/
theorem c9_counterexample :
    IPCServer.run [[123, 125], [123, 34, 100, 97, 116, 97, 34, 58, 32, 53, 125]]
      = [IPCServer.errorResp IPCServer.SrvErr.missingData]
    ∧ IPCServer.run [[123, 34, 100, 97, 116, 97, 34, 58, 32, 53, 125]]
      = [IPCServer.successResp (Json.num 10)]
    ∧ (IPCServer.run [[123, 125], [123, 34, 100, 97, 116, 97, 34, 58, 32, 53, 125]]).length
      = 1 :=
  ⟨rfl, rfl, rfl⟩

/-- C3 counterexample: in the sysv_ipc variant the two cases are not
distinguishable: an idle all-zero segment (zero length prefix — the
no-data case) and a buffer with an in-range length prefix whose payload is
not JSON (here the single byte 120) raise the very same JSON parse
exception, so the caller observes the identical outcome for both. -/
theorem c3_counterexample :
    PyShm.read [1, 0, 0, 0, 120, 0, 0, 0] = Except.error PyShm.PyErr.parseErr
    ∧ PyShm.read (List.replicate 8 0) = Except.error PyShm.PyErr.parseErr
    ∧ PyShm.read [1, 0, 0, 0, 120, 0, 0, 0] = PyShm.read (List.replicate 8 0) :=
  ⟨rfl, rfl, rfl⟩
